import Mathlib

/-!
Verification of the moore SystemVerilog front-end core: a shallow embedding of
the preprocessor (`src/svlog/syntax/preproc.rs`) and of the constant-value
evaluator (`src/svlog/value.rs`), together with theorems settling the frozen
claims about them.

Modelling conventions:
* A `Span` is represented by the string `extract()` would return; `Span::union`
  and `Span::expand` on adjacent spans concatenate those strings.
* Rust `Vec` stacks (`macro_stack`, `defcond_stack`, the stream stack) are
  Lean lists whose head is the top of the stack; `push` is `cons`.
* `HashMap<String, _>` tables are association lists with insert-overwrite
  semantics; lookup is `List.lookup`.
* Fallible Rust code (panics, `expect`, unbounded loops) is `Option`-valued;
  `none` is a panic or non-termination.  Loops run on explicit fuel; `none`
  also signals fuel exhaustion, so theorems about loop results either
  quantify over all fuels or hypothesise a successful (`some`) run.
* Rust's `%` on `BigInt` keeps the sign of the dividend, which is `Int.tmod`;
  `<<` on `BigInt` multiplies by a power of two and `>>` rounds towards
  negative infinity (`Int.fdiv`), matching the `num-bigint` crate.
-/

/-- Characters that are awkward as literals, by code point: backtick. -/
def backtickChar : Char := Char.ofNat 96

/-- The double-quote character. -/
def quoteChar : Char := Char.ofNat 34

/-- The backslash character. -/
def backslashChar : Char := Char.ofNat 92

/-- `CatTokenKind` from the categorising lexer (`cat.rs`, external interface):
the coarse token alphabet the preprocessor works over. -/
inductive CatTokenKind where
  | text
  | digits
  | symbol (c : Char)
  | whitespace
  | newline
  | comment
deriving DecidableEq, Repr

/-- A `(CatTokenKind, Span)` pair; the span is represented by its extracted
text. -/
abbrev Token := CatTokenKind × String

/-- Diagnostics are represented by their message. -/
abbrev Diag := String

/-- `Defcond`, the three-state conditional-block marker. -/
inductive Defcond where
  | done
  | enabled
  | disabled
deriving DecidableEq, Repr

/-- `MacroArg`: a named macro parameter. -/
structure MacroArg where
  name : String
  span : String
deriving DecidableEq, Repr

/-- The preprocessor's `Macro` record (named after the source's own `makro`
variable, as the English word is reserved in Lean). -/
structure Makro where
  name : String
  span : String
  args : List MacroArg
  body : List Token
deriving DecidableEq, Repr

/-- `Macro::new`: a macro with no arguments and an empty body. -/
def Makro.new (name : String) (span : String) : Makro :=
  { name := name, span := span, args := [], body := [] }

/-- The sticky `Directives` set. -/
structure Directives where
  celldefine : Bool
  defaultNettype : Option Token
deriving DecidableEq, Repr

/-- `Default for Directives`. -/
def Directives.default : Directives :=
  { celldefine := false, defaultNettype := none }

/-- The preprocessor state.  The stream stack holds the not-yet-consumed
tokens of each open source (head = top = innermost include); `fs` models the
resolvable include files as an association from file name to token list (the
source searches the current directory and the include paths through the
`SourceManager`; resolution order is collapsed into this single lookup, which
no claim exercises).  The `contents` vector of retained handles is a lifetime
artefact with no observable token-level behaviour and is not modelled. -/
structure PState where
  stack : List (List Token)
  token : Option Token
  macroDefs : List (String × Makro)
  macroStack : List Token
  fs : List (String × List Token)
  defcondStack : List Defcond
  dirs : Directives
deriving DecidableEq, Repr

/-- Insert-with-overwrite for an association list, as `HashMap::insert`. -/
def listInsert (key : String) {α : Type} (v : α) :
    List (String × α) → List (String × α)
  | [] => [(key, v)]
  | (k, w) :: rest =>
    if k = key then (key, v) :: rest else (k, w) :: listInsert key v rest

/-- Remove a key, as `HashMap::remove`. -/
def listRemove (key : String) {α : Type} :
    List (String × α) → List (String × α)
  | [] => []
  | (k, w) :: rest =>
    if k = key then rest else (k, w) :: listRemove key rest

/-- Pull the next token from the stream stack: take from the top stream,
popping exhausted streams, as the loop in `Preprocessor::bump`. -/
def pullStream : List (List Token) → Option Token × List (List Token)
  | [] => (none, [])
  | stream :: rest =>
    match stream with
    | [] => pullStream rest
    | t :: ts => (some t, ts :: rest)

/-- `Preprocessor::bump`: advance the one-token look-ahead, serving the macro
stack first and falling back to the stream stack. -/
def bump (s : PState) : PState :=
  match s.macroStack with
  | t :: ms => { s with token := some t, macroStack := ms }
  | [] =>
    let p := pullStream s.stack
    { s with token := p.1, stack := p.2 }

/-- `Preprocessor::is_inactive`: true iff the conditional stack is non-empty
and its top is not `Enabled`. -/
def isInactive (s : PState) : Bool :=
  match s.defcondStack.head? with
  | some Defcond.enabled => false
  | none => false
  | _ => true

/-- The compiler directives recognised by the preprocessor (`enum Directive`).
`else` is a Lean keyword, hence the `D` suffixes on the conditional names. -/
inductive Directive where
  | includeD
  | define
  | undef
  | undefineall
  | ifdef
  | ifndef
  | elseD
  | elsifD
  | endifD
  | timescale
  | currentFile
  | currentLine
  | resetall
  | celldefine
  | endcelldefine
  | defaultNettype
  | unknown
deriving DecidableEq, Repr

/-- `DIRECTIVES_TABLE`: the name-to-directive mapping. -/
def directivesTable : List (String × Directive) :=
  [("include", Directive.includeD),
   ("define", Directive.define),
   ("undef", Directive.undef),
   ("undefineall", Directive.undefineall),
   ("ifdef", Directive.ifdef),
   ("ifndef", Directive.ifndef),
   ("else", Directive.elseD),
   ("elsif", Directive.elsifD),
   ("endif", Directive.endifD),
   ("__FILE__", Directive.currentFile),
   ("__LINE__", Directive.currentLine),
   ("resetall", Directive.resetall),
   ("celldefine", Directive.celldefine),
   ("endcelldefine", Directive.endcelldefine),
   ("default_nettype", Directive.defaultNettype),
   ("timescale", Directive.timescale)]

/-- Table lookup with `Directive::Unknown` as the fallback, as in
`handle_directive`. -/
def directiveOf (name : String) : Directive :=
  (directivesTable.lookup name).getD Directive.unknown

/-- The tail loop of `try_eat_name`: keep consuming `Text`, `Digits` and
`Symbol('_')` tokens, accumulating the extracted text (name and expanded span
coincide under the span-as-text model). -/
def eatNameLoop : Nat → PState → String → Option (String × PState)
  | 0, _, _ => none
  | fuel + 1, s, name =>
    match s.token with
    | some (CatTokenKind.text, sp) => eatNameLoop fuel (bump s) (name ++ sp)
    | some (CatTokenKind.digits, sp) => eatNameLoop fuel (bump s) (name ++ sp)
    | some (CatTokenKind.symbol '_', sp) => eatNameLoop fuel (bump s) (name ++ sp)
    | _ => some (name, s)

/-- `Preprocessor::try_eat_name`: an identifier is `Text | Symbol('_')`
followed by any mix of `Text | Digits | Symbol('_')`.  The inner option is
the source's `Option<(String, Span)>`; the outer one is fuel exhaustion. -/
def tryEatName (fuel : Nat) (s : PState) : Option (Option String × PState) :=
  match s.token with
  | some (CatTokenKind.text, sp) =>
    (eatNameLoop fuel (bump s) sp).map (fun r => (some r.1, r.2))
  | some (CatTokenKind.symbol '_', sp) =>
    (eatNameLoop fuel (bump s) sp).map (fun r => (some r.1, r.2))
  | _ => some (none, s)

-- Sanity checks of the primitive layer.
example : bump { stack := [[(CatTokenKind.text, "a")], [(CatTokenKind.text, "b")]],
                 token := none, macroDefs := [], macroStack := [],
                 fs := [], defcondStack := [], dirs := Directives.default } =
          { stack := [[], [(CatTokenKind.text, "b")]],
            token := some (CatTokenKind.text, "a"), macroDefs := [], macroStack := [],
            fs := [], defcondStack := [], dirs := Directives.default } := by decide

example : isInactive { stack := [], token := none, macroDefs := [], macroStack := [],
                       fs := [], defcondStack := [Defcond.disabled],
                       dirs := Directives.default } = true := by decide

/-- The filename-accumulation loop of the `Include` arm: gather `extract()`ed
text until the closing symbol (which is left as the current token); a newline
or end of input is fatal. -/
def includeNameLoop : Nat → Char → String → PState →
    Option (Except Diag String × PState)
  | 0, _, _, _ => none
  | fuel + 1, closing, acc, s =>
    match s.token with
    | some (CatTokenKind.symbol c, sp) =>
      if c = closing then some (Except.ok acc, s)
      else includeNameLoop fuel closing (acc ++ sp) (bump s)
    | some (CatTokenKind.newline, _) =>
      some (Except.error "expected end of included file name before line break", s)
    | some (_, sp) => includeNameLoop fuel closing (acc ++ sp) (bump s)
    | none =>
      some (Except.error "expected filename after include directive before the end of the input", s)

/-- `open_include`, modelled as a lookup in the `fs` association (the source
searches the current file's directory and then each include path through the
external `SourceManager`; the search order is collapsed into the association
order, which no claim depends on). -/
def openInclude (s : PState) (filename : String) : Option (List Token) :=
  s.fs.lookup filename

/-- One optional leading-whitespace skip, the recurring
`match self.token { Some((Whitespace, _)) => self.bump(), _ => () }`. -/
def skipOneWs (s : PState) : PState :=
  match s.token with
  | some (CatTokenKind.whitespace, _) => bump s
  | _ => s

/-- The argument-list loop of the `Define` arm.  Each iteration optionally
skips whitespace (or breaks on `)`), reads one argument name, optionally
skips whitespace, then consumes a comma or breaks on `)`; the closing
parenthesis is left as the current token for the caller to bump. -/
def defineArgsLoop : Nat → PState → List MacroArg →
    Option (Except Diag (List MacroArg) × PState)
  | 0, _, _ => none
  | fuel + 1, s0, args =>
    match s0.token with
    | some (CatTokenKind.symbol ')', _) => some (Except.ok args, s0)
    | _ =>
      let s1 := skipOneWs s0
      match tryEatName fuel s1 with
      | none => none
      | some (none, s2) => some (Except.error "expected macro argument name", s2)
      | some (some name, s2) =>
        let args1 := args ++ [MacroArg.mk name name]
        let s3 := skipOneWs s2
        match s3.token with
        | some (CatTokenKind.symbol ',', _) => defineArgsLoop fuel (bump s3) args1
        | some (CatTokenKind.symbol ')', _) => some (Except.ok args1, s3)
        | some _ =>
          some (Except.error "expected comma or closing parenthesis after macro argument name", s3)
        | none =>
          some (Except.error "expected closing parenthesis at the end of the macro definition", s3)

/-- The body loop of the `Define` arm: tokens up to the next newline; a
backslash is dropped and, when directly followed by a newline, drops that
newline too (line continuation); end of input also ends the body. -/
def defineBodyLoop : Nat → PState → List Token → Option (List Token × PState)
  | 0, _, _ => none
  | fuel + 1, s, body =>
    match s.token with
    | some (CatTokenKind.newline, _) => some (body, bump s)
    | some (CatTokenKind.symbol c, sp) =>
      if c = backslashChar then
        let s1 := bump s
        let s2 := match s1.token with
          | some (CatTokenKind.newline, _) => bump s1
          | _ => s1
        defineBodyLoop fuel s2 body
      else defineBodyLoop fuel (bump s) (body ++ [(CatTokenKind.symbol c, sp)])
    | some t => defineBodyLoop fuel (bump s) (body ++ [t])
    | none => some (body, s)

/-- The `timescale` arm's loop: consume tokens until the next newline, which
is left as the current token; end of input also stops. -/
def timescaleLoop : Nat → PState → Option PState
  | 0, _ => none
  | fuel + 1, s =>
    match s.token with
    | some (CatTokenKind.newline, _) => some s
    | some _ => timescaleLoop fuel (bump s)
    | none => some s

/-- The result of one argument's token capture in macro-invocation parsing:
the argument ended at a depth-0 comma (more arguments follow) or at the
depth-0 closing parenthesis (parameter parsing is finished). -/
inductive ParamCapture where
  | comma (toks : List Token)
  | closeParen (toks : List Token)
deriving DecidableEq, Repr

/-- The inner loop of macro-invocation argument capture: collect tokens with
parenthesis-nesting bookkeeping; a depth-0 comma is consumed, the depth-0
closing parenthesis is left as the current token. -/
def macroParamsInner : Nat → PState → Nat → List Token →
    Option (Except Diag ParamCapture × PState)
  | 0, _, _, _ => none
  | fuel + 1, s, nesting, toks =>
    match s.token with
    | some (CatTokenKind.symbol ',', sp) =>
      if nesting = 0 then some (Except.ok (ParamCapture.comma toks), bump s)
      else macroParamsInner fuel (bump s) nesting (toks ++ [(CatTokenKind.symbol ',', sp)])
    | some (CatTokenKind.symbol '(', sp) =>
      macroParamsInner fuel (bump s) (nesting + 1) (toks ++ [(CatTokenKind.symbol '(', sp)])
    | some (CatTokenKind.symbol ')', sp) =>
      if nesting = 0 then some (Except.ok (ParamCapture.closeParen toks), s)
      else macroParamsInner fuel (bump s) (nesting - 1) (toks ++ [(CatTokenKind.symbol ')', sp)])
    | some t => macroParamsInner fuel (bump s) nesting (toks ++ [t])
    | none =>
      some (Except.error "expected closing parenthesis after macro parameters", s)

/-- The outer loop of macro-invocation argument capture: bind each captured
token sequence to the next parameter name; running out of declared parameters
is fatal.  The closing parenthesis is left for the caller to bump. -/
def macroParamsOuter : Nat → PState → List MacroArg →
    List (String × List Token) →
    Option (Except Diag (List (String × List Token)) × PState)
  | 0, _, _, _ => none
  | fuel + 1, s, argsRem, params =>
    match s.token with
    | some (CatTokenKind.symbol ')', _) => some (Except.ok params, s)
    | _ =>
      match argsRem with
      | [] => some (Except.error "superfluous macro parameters", s)
      | arg :: argsRest =>
        match macroParamsInner fuel s 0 [] with
        | none => none
        | some (Except.error d, s1) => some (Except.error d, s1)
        | some (Except.ok (ParamCapture.comma toks), s1) =>
          macroParamsOuter fuel s1 argsRest (listInsert arg.name toks params)
        | some (Except.ok (ParamCapture.closeParen toks), s1) =>
          some (Except.ok (listInsert arg.name toks params), s1)

/-- `Vec::push` followed by `Vec::extend` over a reversed iterator, on the
macro stack (head = top): push every element of `xs` in order, so that the
last-pushed element is on top. -/
def vecExtend (st : List Token) (xs : List Token) : List Token :=
  xs.foldl (fun acc x => x :: acc) st

/-- The substitution pass of macro expansion (`handle_directive`, `Unknown`
arm): a body token of kind `Text` whose extracted string is bound in `params`
is replaced by the bound token sequence; every other token is kept. -/
def buildReplacement : List Token → List (String × List Token) → List Token
  | [], _ => []
  | t :: rest, params =>
    (match t with
     | (CatTokenKind.text, sp) =>
       match params.lookup sp with
       | some substitute => substitute
       | none => [t]
     | _ => [t]) ++ buildReplacement rest params

/-- The token-injection step of macro expansion: push the current look-ahead
(if any) onto the macro stack, then the (substituted) body in reverse order,
then advance. -/
def pushExpansion (makro : Makro) (params : List (String × List Token))
    (s : PState) : PState :=
  let s1 :=
    match s.token with
    | some t => { s with macroStack := t :: s.macroStack }
    | none => s
  let s2 :=
    if params.isEmpty then
      { s1 with macroStack := vecExtend s1.macroStack makro.body.reverse }
    else
      { s1 with macroStack :=
          vecExtend s1.macroStack (buildReplacement makro.body params).reverse }
  bump s2

/-- The trailing fatal diagnostic of `handle_directive`, reached when a match
arm completes without returning. -/
def unknownDirectiveMsg (dirName : String) : Diag :=
  "unknown compiler directive " ++ dirName

/-- Completion of the `Define` arm after the optional parameter list: skip one
whitespace, read the body, insert the macro. -/
def finishDefine (fuel : Nat) (name : String) (args : List MacroArg)
    (s : PState) : Option (PState × Option Diag) :=
  let s1 := skipOneWs s
  match defineBodyLoop fuel s1 [] with
  | none => none
  | some (body, s2) =>
    let makro : Makro := { name := name, span := name, args := args, body := body }
    some ({ s2 with macroDefs := listInsert name makro s2.macroDefs }, none)

/-- The shared `Ifdef | Ifndef | Elsif` arm: always processed (no inactivity
early-out); read the tested name, then transform the conditional stack.  For
`elsif` the pop happens before `is_inactive` is consulted, exactly as the
source pops in the match scrutinee. -/
def condDirective (fuel : Nat) (dir : Directive) (dirName : String)
    (s : PState) : Option (PState × Option Diag) :=
  let s0 := skipOneWs s
  match tryEatName fuel s0 with
  | none => none
  | some (none, s1) => some (s1, some ("expected macro name after " ++ dirName))
  | some (some name, s1) =>
    let macroExists := (s1.macroDefs.lookup name).isSome
    match dir with
    | Directive.ifdef =>
      some ({ s1 with defcondStack :=
        (if isInactive s1 then Defcond.done
         else if macroExists then Defcond.enabled
         else Defcond.disabled) :: s1.defcondStack }, none)
    | Directive.ifndef =>
      some ({ s1 with defcondStack :=
        (if isInactive s1 then Defcond.done
         else if macroExists then Defcond.disabled
         else Defcond.enabled) :: s1.defcondStack }, none)
    | _ =>
      match s1.defcondStack with
      | Defcond.done :: rest =>
        some ({ s1 with defcondStack := Defcond.done :: rest }, none)
      | Defcond.enabled :: rest =>
        some ({ s1 with defcondStack := Defcond.done :: rest }, none)
      | Defcond.disabled :: rest =>
        let s2 := { s1 with defcondStack := rest }
        some ({ s2 with defcondStack :=
          (if isInactive s2 then Defcond.done
           else if macroExists then Defcond.enabled
           else Defcond.disabled) :: rest }, none)
      | [] =>
        some (s1, some "found elsif without any preceeding ifdef, ifndef, or elsif directive")

/-- `Preprocessor::handle_directive`.  The result is `(state, none)` for
`Ok(())`, `(state, some d)` for `Err(d)` — the state carries all mutations
made before the failure, matching the `&mut self` discipline — and an outer
`none` for fuel exhaustion. -/
def handleDirective (fuel : Nat) (dirName : String) (span : String)
    (s : PState) : Option (PState × Option Diag) :=
  match directiveOf dirName with
  | Directive.includeD =>
    if isInactive s then some (s, none)
    else
      let s1 := skipOneWs s
      match s1.token with
      | some (CatTokenKind.symbol c, _) =>
        if c = quoteChar ∨ c = '<' then
          let closing : Char := if c = quoteChar then quoteChar else '>'
          match includeNameLoop fuel closing "" (bump s1) with
          | none => none
          | some (Except.error d, s2) => some (s2, some d)
          | some (Except.ok filename, s2) =>
            match openInclude s2 filename with
            | none => some (s2, some ("cannot open included file " ++ filename))
            | some toks => some (bump { s2 with stack := toks :: s2.stack }, none)
        else
          some (s1, some "expected filename inside double quotes or angular brackets after include")
      | _ =>
        some (s1, some "expected filename inside double quotes or angular brackets after include")
  | Directive.define =>
    if isInactive s then some (s, none)
    else
      let s1 := skipOneWs s
      match tryEatName fuel s1 with
      | none => none
      | some (none, s2) => some (s2, some "expected macro name after define")
      | some (some name, s2) =>
        match s2.token with
        | some (CatTokenKind.symbol '(', _) =>
          match defineArgsLoop fuel (bump s2) [] with
          | none => none
          | some (Except.error d, s3) => some (s3, some d)
          | some (Except.ok args, s3) => finishDefine fuel name args (bump s3)
        | _ => finishDefine fuel name [] s2
  | Directive.undef =>
    if isInactive s then some (s, none)
    else
      let s1 := skipOneWs s
      match tryEatName fuel s1 with
      | none => none
      | some (none, s2) => some (s2, some "expected macro name after undef")
      | some (some name, s2) =>
        some ({ s2 with macroDefs := listRemove name s2.macroDefs }, none)
  | Directive.undefineall =>
    if isInactive s then some (s, none)
    else
      -- The source arm has no `return Ok(())`, so after clearing the table
      -- control falls through to the trailing fatal diagnostic.
      some ({ s with macroDefs := [] }, some (unknownDirectiveMsg dirName))
  | Directive.ifdef => condDirective fuel Directive.ifdef dirName s
  | Directive.ifndef => condDirective fuel Directive.ifndef dirName s
  | Directive.elsifD => condDirective fuel Directive.elsifD dirName s
  | Directive.elseD =>
    match s.defcondStack with
    | Defcond.disabled :: rest =>
      some ({ s with defcondStack := Defcond.enabled :: rest }, none)
    | Defcond.enabled :: rest =>
      some ({ s with defcondStack := Defcond.done :: rest }, none)
    | Defcond.done :: rest =>
      some ({ s with defcondStack := Defcond.done :: rest }, none)
    | [] =>
      some (s, some "found else without any preceeding ifdef, ifndef, or elsif directive")
  | Directive.endifD =>
    match s.defcondStack with
    | _ :: rest => some ({ s with defcondStack := rest }, none)
    | [] =>
      some (s, some "found endif without any preceeding ifdef, ifndef, else, or elsif directive")
  | Directive.unknown =>
    if isInactive s then some (s, none)
    else
      match s.macroDefs.lookup dirName with
      | some makro =>
        if makro.args.isEmpty then some (pushExpansion makro [] s, none)
        else
          match s.token with
          | some (CatTokenKind.symbol '(', _) =>
            match macroParamsOuter fuel (bump s) makro.args [] with
            | none => none
            | some (Except.error d, s1) => some (s1, some d)
            | some (Except.ok params, s1) =>
              some (pushExpansion makro params (bump s1), none)
          | _ => some (s, some "expected macro parameters in parentheses")
      | none => some (s, some (unknownDirectiveMsg dirName))
  | Directive.timescale =>
    match timescaleLoop fuel s with
    | none => none
    | some s1 => some (s1, none)
  | Directive.currentFile =>
    if isInactive s then some (s, none)
    else some ({ s with macroStack := (CatTokenKind.text, span) :: s.macroStack }, none)
  | Directive.currentLine =>
    if isInactive s then some (s, none)
    else some ({ s with macroStack := (CatTokenKind.digits, span) :: s.macroStack }, none)
  | Directive.resetall =>
    if isInactive s then some (s, none)
    else some ({ s with dirs := Directives.default }, none)
  | Directive.celldefine =>
    if isInactive s then some (s, none)
    else some ({ s with dirs := { s.dirs with celldefine := true } }, none)
  | Directive.endcelldefine =>
    if isInactive s then some (s, none)
    else some ({ s with dirs := { s.dirs with celldefine := false } }, none)
  | Directive.defaultNettype =>
    if isInactive s then some (s, none)
    else
      let s1 := skipOneWs s
      match s1.token with
      | some (CatTokenKind.text, sp) =>
        let s2 := bump s1
        some ({ s2 with dirs := { s2.dirs with defaultNettype :=
          (if sp = "none" then none else some (CatTokenKind.text, sp)) } }, none)
      | _ => some (s1, some "expected nettype after default_nettype")

/-- The main loop of `Iterator::next` for `Preprocessor`.  The inner option is
the iterator's own (`none` = end of stream), the `Except` is
`Result<TokenAndSpan, Diagnostic>`, and the outer option is fuel exhaustion
(the real loop can run forever, e.g. on a self-expanding macro). -/
def nextLoop : Nat → PState → Option (Option (Except Diag Token) × PState)
  | 0, _ => none
  | fuel + 1, s =>
    match s.token with
    | some (CatTokenKind.symbol c, spB) =>
      if c = backtickChar then
        let s1 := bump s
        match tryEatName fuel s1 with
        | none => none
        | some (some name, s2) =>
          match handleDirective fuel name (spB ++ name) s2 with
          | none => none
          | some (s3, some d) => some (some (Except.error d), s3)
          | some (s3, none) => nextLoop fuel s3
        | some (none, s2) =>
          match s2.token with
          | some (CatTokenKind.symbol c2, sp2) =>
            if c2 = quoteChar ∨ c2 = backslashChar then
              let s3 := bump s2
              if isInactive s3 then nextLoop fuel s3
              else some (some (Except.ok (CatTokenKind.symbol c2, sp2)), s3)
            else if c2 = backtickChar then
              nextLoop fuel (bump s2)
            else
              some (some (Except.error "expected compiler directive after backtick"), s2)
          | _ =>
            some (some (Except.error "expected compiler directive after backtick"), s2)
      else
        if isInactive s then nextLoop fuel (bump s)
        else some (some (Except.ok (CatTokenKind.symbol c, spB)), bump s)
    | some t =>
      if isInactive s then nextLoop fuel (bump s)
      else some (some (Except.ok t), bump s)
    | none =>
      if isInactive s then nextLoop fuel (bump s)
      else some (none, bump s)

/-- `Iterator::next` for `Preprocessor`: populate the look-ahead on the first
call, then run the main loop. -/
def nextToken (fuel : Nat) (s : PState) :
    Option (Option (Except Diag Token) × PState) :=
  let s1 := if s.token.isNone then bump s else s
  nextLoop fuel s1

/-- A convenient initial state over a single root stream, as
`Preprocessor::new` with no include paths and no predefined macros. -/
def initState (toks : List Token) : PState :=
  { stack := [toks], token := none, macroDefs := [], macroStack := [],
    fs := [], defcondStack := [], dirs := Directives.default }

/-- Drive the preprocessor to completion, collecting emitted tokens, stopping
at the first error or at end of stream; used only to cross-check the model
against the source's own unit tests. -/
def runCollect : Nat → PState → List Token → Option (List Token × Option Diag)
  | 0, _, _ => none
  | fuel + 1, s, acc =>
    match nextToken fuel s with
    | none => none
    | some (none, _) => some (acc, none)
    | some (some (Except.error d), _) => some (acc, some d)
    | some (some (Except.ok t), s1) => runCollect fuel s1 (acc ++ [t])

/-- Concatenate the extracted text of a token list, as the source's unit
tests do when comparing preprocessor output. -/
def strOfToks (toks : List Token) : String :=
  (toks.map Prod.snd).foldl (fun a b => a ++ b) ""

/-- The token categorisation of the source's `macro_args` unit test input
`define foo(x,y) {x + y _bar}  /  foo(12, foo)`. -/
def macroArgsInput : List Token :=
  [(CatTokenKind.symbol backtickChar, "`"), (CatTokenKind.text, "define"),
   (CatTokenKind.whitespace, " "), (CatTokenKind.text, "foo"),
   (CatTokenKind.symbol '(', "("), (CatTokenKind.text, "x"),
   (CatTokenKind.symbol ',', ","), (CatTokenKind.text, "y"),
   (CatTokenKind.symbol ')', ")"), (CatTokenKind.whitespace, " "),
   (CatTokenKind.symbol '{', "\x7b"), (CatTokenKind.text, "x"),
   (CatTokenKind.whitespace, " "), (CatTokenKind.symbol '+', "+"),
   (CatTokenKind.whitespace, " "), (CatTokenKind.text, "y"),
   (CatTokenKind.whitespace, " "), (CatTokenKind.symbol '_', "_"),
   (CatTokenKind.text, "bar"), (CatTokenKind.symbol '}', "\x7d"),
   (CatTokenKind.newline, "\n"),
   (CatTokenKind.symbol backtickChar, "`"), (CatTokenKind.text, "foo"),
   (CatTokenKind.symbol '(', "("), (CatTokenKind.digits, "12"),
   (CatTokenKind.symbol ',', ","), (CatTokenKind.whitespace, " "),
   (CatTokenKind.text, "foo"), (CatTokenKind.symbol ')', ")"),
   (CatTokenKind.newline, "\n")]

example :
    (runCollect 60 (initState macroArgsInput) []).map
      (fun r => (strOfToks r.1, r.2)) =
    some ("\x7b12 +  foo _bar\x7d\n", none) := by decide

/-- The subset of `TypeKind` (crate `ty`, outside this repository's sources)
that `value.rs` matches on.  Modelled from the spec: `Int` and `BitVector`
carry a bit width, `Bit` and `BitScalar` are single bits, `Named` is an
alias unwrapped by `resolve_name`. -/
inductive TypeKind where
  | error
  | void
  | time
  | bit
  | bitScalar
  | int (width : Nat)
  | bitVector (size : Nat)
  | named (inner : TypeKind)
  | structK (numFields : Nat)
  | packedArray (length : Nat)
deriving DecidableEq, Repr

/-- Modelled from the spec: `Type::resolve_name` unwraps `Named` aliases. -/
def TypeKind.resolveName : TypeKind → TypeKind
  | TypeKind.named inner => inner.resolveName
  | t => t

/-- Modelled from the spec: `Type::width`, the declared bit width ("width :=
ty.bit-width"); only integer-like kinds have one, the rest are given 0,
which no modelled operation observes. -/
def TypeKind.width : TypeKind → Nat
  | TypeKind.int w => w
  | TypeKind.bitVector w => w
  | TypeKind.bit => 1
  | TypeKind.bitScalar => 1
  | TypeKind.named inner => inner.width
  | _ => 0

/-- Modelled from the spec: `Type::is_error`. -/
def TypeKind.isError : TypeKind → Bool
  | TypeKind.error => true
  | _ => false

/-- Modelled from the spec: `Type::is_struct` (used by `make_struct`'s
assertion). -/
def TypeKind.isStruct : TypeKind → Bool
  | TypeKind.structK _ => true
  | _ => false

/-- Modelled from the spec: `Type::is_array` (used by `make_array`'s
assertion). -/
def TypeKind.isArray : TypeKind → Bool
  | TypeKind.packedArray _ => true
  | _ => false

/-- Modelled from the spec: `Type::simple_bit_vector(..).size` is the bit
width of the type. -/
def sbvSize (ty : TypeKind) : Nat := ty.width

/-- `ValueData` with its `ValueKind` inlined (the source's record is
`{ ty, kind }`; each constructor below is one `ValueKind` variant carrying
the `ty` field).  `Int` carries the special-bits and x-bits vectors. -/
inductive ValueData where
  | void (ty : TypeKind)
  | int (ty : TypeKind) (v : Int) (specialBits : List Bool) (xBits : List Bool)
  | time (ty : TypeKind) (v : Rat)
  | structOrArray (ty : TypeKind) (values : List ValueData)
  | error (ty : TypeKind)

/-- The `ty` field of a value. -/
def ValueData.ty : ValueData → TypeKind
  | ValueData.void ty => ty
  | ValueData.int ty _ _ _ => ty
  | ValueData.time ty _ => ty
  | ValueData.structOrArray ty _ => ty
  | ValueData.error ty => ty

/-- `ValueKind::is_error`. -/
def ValueData.kindIsError : ValueData → Bool
  | ValueData.error _ => true
  | _ => false

/-- `ValueData::is_error`: the type is the error type or the kind is the
error tombstone. -/
def ValueData.isError (v : ValueData) : Bool :=
  v.ty.isError || v.kindIsError

/-- `ValueData::is_false`. -/
def ValueData.isFalse : ValueData → Bool
  | ValueData.void _ => true
  | ValueData.int _ v _ _ => v = 0
  | ValueData.time _ v => v = 0
  | ValueData.structOrArray _ _ => false
  | ValueData.error _ => true

/-- `ValueData::is_true`. -/
def ValueData.isTrue (v : ValueData) : Bool := !v.isFalse

/-- `ValueData::get_int`. -/
def ValueData.getInt : ValueData → Option Int
  | ValueData.int _ v _ _ => some v
  | _ => none

/-- Replace the type while keeping the kind, as the cast arms'
`ValueData { ty: mir_ty, kind: v.kind.clone() }`. -/
def ValueData.withTy : ValueData → TypeKind → ValueData
  | ValueData.void _, ty => ValueData.void ty
  | ValueData.int _ v sb xb, ty => ValueData.int ty v sb xb
  | ValueData.time _ v, ty => ValueData.time ty v
  | ValueData.structOrArray _ vs, ty => ValueData.structOrArray ty vs
  | ValueData.error _, ty => ValueData.error ty

/-- `BigInt` left shift: multiply by a power of two. -/
def bigShl (v : Int) (n : Nat) : Int := v * 2 ^ n

/-- `BigInt` right shift: `num-bigint` rounds towards negative infinity
(arithmetic shift), which is `Int.fdiv` by a power of two. -/
def bigShr (v : Int) (n : Nat) : Int := Int.fdiv v (2 ^ n)

/-- `make_error`. -/
def make_error (ty : TypeKind) : ValueData := ValueData.error ty

/-- `make_int_special`: truncate the value to the type.  Rust's `%` on
`BigInt` keeps the dividend's sign, hence `Int.tmod`; a non-integer type
panics (`none`). -/
def make_int_special (ty : TypeKind) (value : Int) (specialBits xBits : List Bool) :
    Option ValueData :=
  match ty.resolveName with
  | TypeKind.int width => some (ValueData.int ty (value.tmod (bigShl 1 width)) specialBits xBits)
  | TypeKind.bitVector size => some (ValueData.int ty (value.tmod (bigShl 1 size)) specialBits xBits)
  | TypeKind.bit => some (ValueData.int ty (value.tmod 2) specialBits xBits)
  | TypeKind.bitScalar => some (ValueData.int ty (value.tmod 2) specialBits xBits)
  | _ => none

/-- `make_int`: all-zero special bits of the type's width. -/
def make_int (ty : TypeKind) (value : Int) : Option ValueData :=
  make_int_special ty value (List.replicate ty.width false) (List.replicate ty.width false)

/-- `make_struct` (panics unless the type is a struct). -/
def make_struct (ty : TypeKind) (fields : List ValueData) : Option ValueData :=
  if ty.isStruct then some (ValueData.structOrArray ty fields) else none

/-- `make_array` (panics unless the type is an array). -/
def make_array (ty : TypeKind) (elements : List ValueData) : Option ValueData :=
  if ty.isArray then some (ValueData.structOrArray ty elements) else none

/-- `mir::UnaryBitwiseOp`. -/
inductive UnaryBitwiseOp where
  | not
deriving DecidableEq, Repr

/-- `mir::BinaryBitwiseOp` (also used by `Reduction`). -/
inductive BinaryBitwiseOp where
  | and
  | or
  | xor
deriving DecidableEq, Repr

/-- `mir::IntUnaryArithOp`. -/
inductive IntUnaryArithOp where
  | neg
deriving DecidableEq, Repr

/-- `mir::IntBinaryArithOp`. -/
inductive IntBinaryArithOp where
  | add
  | sub
  | mul
  | div
  | mod
  | pow
deriving DecidableEq, Repr

/-- `mir::IntCompOp`. -/
inductive IntCompOp where
  | eq
  | neq
  | lt
  | leq
  | gt
  | geq
deriving DecidableEq, Repr

/-- `mir::ShiftOp`. -/
inductive ShiftOp where
  | left
  | right
deriving DecidableEq, Repr

/-- `const_unary_bitwise_int`: `Not` is `(1 << size) - 1 - arg`. -/
def const_unary_bitwise_int (ty : Nat) (op : UnaryBitwiseOp) (arg : Int) : Int :=
  match op with
  | UnaryBitwiseOp.not => bigShl 1 ty - 1 - arg

/-- `const_binary_bitwise_int`: bitwise operations on bigints (two's
complement semantics for negatives, as `num-bigint`). -/
def const_binary_bitwise_int (op : BinaryBitwiseOp) (lhs rhs : Int) : Int :=
  match op with
  | BinaryBitwiseOp.and => Int.land lhs rhs
  | BinaryBitwiseOp.or => Int.lor lhs rhs
  | BinaryBitwiseOp.xor => Int.xor lhs rhs

/-- `const_unary_arith_int`: `Neg` is arithmetic negation. -/
def const_unary_arith_int (op : IntUnaryArithOp) (arg : Int) : Int :=
  match op with
  | IntUnaryArithOp.neg => -arg

/-- The `Pow` arm's iterated-multiply loop: `result := 1; while cnt != 0
{ result := result * lhs; cnt := cnt - 1 }`, under fuel.  Starting from a
negative count the loop never reaches zero. -/
def powLoop (lhs : Int) : Nat → Int → Int → Option Int
  | 0, _, _ => none
  | fuel + 1, result, cnt =>
    if cnt = 0 then some result else powLoop lhs fuel (result * lhs) (cnt - 1)

/-- `const_binary_arith_int`: `Div` and `Mod` follow the bigint library's
truncation towards zero and panic on a zero divisor; `Pow` is the iterated
multiply. -/
def const_binary_arith_int (fuel : Nat) (op : IntBinaryArithOp) (lhs rhs : Int) :
    Option Int :=
  match op with
  | IntBinaryArithOp.add => some (lhs + rhs)
  | IntBinaryArithOp.sub => some (lhs - rhs)
  | IntBinaryArithOp.mul => some (lhs * rhs)
  | IntBinaryArithOp.div => if rhs = 0 then none else some (lhs.tdiv rhs)
  | IntBinaryArithOp.mod => if rhs = 0 then none else some (lhs.tmod rhs)
  | IntBinaryArithOp.pow => powLoop lhs fuel 1 rhs

/-- `const_comp_int`: 0/1 results of bigint comparisons. -/
def const_comp_int (op : IntCompOp) (lhs rhs : Int) : Int :=
  match op with
  | IntCompOp.eq => if lhs = rhs then 1 else 0
  | IntCompOp.neq => if lhs ≠ rhs then 1 else 0
  | IntCompOp.lt => if lhs < rhs then 1 else 0
  | IntCompOp.leq => if lhs ≤ rhs then 1 else 0
  | IntCompOp.gt => if lhs > rhs then 1 else 0
  | IntCompOp.geq => if lhs ≥ rhs then 1 else 0

/-- `isize::MIN ≤ a ≤ isize::MAX` on a 64-bit host: the range in which
`BigInt::to_isize` returns `Some`. -/
def fitsIsize (a : Int) : Prop := -(2 ^ 63) ≤ a ∧ a < 2 ^ 63

instance (a : Int) : Decidable (fitsIsize a) := by
  unfold fitsIsize
  infer_instance

/-- `BigInt::to_isize`. -/
def toIsize (a : Int) : Option Int :=
  if fitsIsize a then some a else none

/-- `const_shift_int`: shift by the amount if it fits a machine integer,
swapping the direction for negative amounts (`-sh as usize` is the
magnitude, also at `isize::MIN` where the negation wraps); a non-fitting
amount yields 0.  The `arith` flag is ignored by the source. -/
def const_shift_int (op : ShiftOp) (_arith : Bool) (value amount : Int) : Int :=
  match op with
  | ShiftOp.left =>
    match toIsize amount with
    | some sh => if sh < 0 then bigShr value (-sh).toNat else bigShl value sh.toNat
    | none => 0
  | ShiftOp.right =>
    match toIsize amount with
    | some sh => if sh < 0 then bigShl value (-sh).toNat else bigShr value sh.toNat
    | none => 0

/-- Population count with explicit fuel (`n` itself is enough fuel). -/
def popCountFuel : Nat → Nat → Nat
  | 0, _ => 0
  | fuel + 1, n => if n = 0 then 0 else n % 2 + popCountFuel fuel (n / 2)

/-- Population count of the magnitude, as
`to_bytes_le().1` bytes' `count_ones` summed. -/
def natPopCount (n : Nat) : Nat := popCountFuel n n

/-- `const_reduction_int`: `And` tests all-ones against the argument type's
width, `Or` tests non-zero, `Xor` tests odd population count of the
magnitude bytes. -/
def const_reduction_int (ty : Nat) (op : BinaryBitwiseOp) (arg : Int) : Int :=
  match op with
  | BinaryBitwiseOp.and => if arg = bigShl 1 ty - 1 then 1 else 0
  | BinaryBitwiseOp.or => if arg ≠ 0 then 1 else 0
  | BinaryBitwiseOp.xor => if natPopCount arg.natAbs % 2 = 1 then 1 else 0

/-- `mir::Rvalue`, restricted to what `const_mir_rvalue_inner` matches on.
Each constructor carries the node's `ty` (`mir.ty`; `to_legacy` is the
identity in this model).  Fields that only feed diagnostics or that the
evaluator never reads (`Var`, `Port`, `Assignment`, `Index` payloads) are
elided. -/
inductive Rvalue where
  | castValueDomain (ty : TypeKind) (value : Rvalue)
  | castVectorToAtom (ty : TypeKind) (value : Rvalue)
  | castAtomToVector (ty : TypeKind) (value : Rvalue)
  | castSign (ty : TypeKind) (value : Rvalue)
  | truncate (ty : TypeKind) (value : Rvalue)
  | zeroExtend (ty : TypeKind) (value : Rvalue)
  | signExtend (ty : TypeKind) (value : Rvalue)
  | castToBool (ty : TypeKind) (value : Rvalue)
  | constructArray (ty : TypeKind) (values : List Rvalue)
  | constructStruct (ty : TypeKind) (values : List Rvalue)
  | constRv (ty : TypeKind) (value : ValueData)
  | unaryBitwise (ty : TypeKind) (op : UnaryBitwiseOp) (arg : Rvalue)
  | binaryBitwise (ty : TypeKind) (op : BinaryBitwiseOp) (lhs rhs : Rvalue)
  | intUnaryArith (ty : TypeKind) (op : IntUnaryArithOp) (arg : Rvalue)
  | intBinaryArith (ty : TypeKind) (op : IntBinaryArithOp) (lhs rhs : Rvalue)
  | intComp (ty : TypeKind) (op : IntCompOp) (lhs rhs : Rvalue)
  | concat (ty : TypeKind) (values : List Rvalue)
  | repeatRv (ty : TypeKind) (count : Nat) (value : Rvalue)
  | assignment (ty : TypeKind)
  | var (ty : TypeKind)
  | port (ty : TypeKind)
  | member (ty : TypeKind) (value : Rvalue) (field : Nat)
  | ternary (ty : TypeKind) (cond trueValue falseValue : Rvalue)
  | shift (ty : TypeKind) (op : ShiftOp) (arith : Bool) (value amount : Rvalue)
  | reduction (ty : TypeKind) (op : BinaryBitwiseOp) (arg : Rvalue)
  | index (ty : TypeKind)
  | errorRv (ty : TypeKind)

/-- `mir.ty`. -/
def Rvalue.ty : Rvalue → TypeKind
  | Rvalue.castValueDomain ty _ => ty
  | Rvalue.castVectorToAtom ty _ => ty
  | Rvalue.castAtomToVector ty _ => ty
  | Rvalue.castSign ty _ => ty
  | Rvalue.truncate ty _ => ty
  | Rvalue.zeroExtend ty _ => ty
  | Rvalue.signExtend ty _ => ty
  | Rvalue.castToBool ty _ => ty
  | Rvalue.constructArray ty _ => ty
  | Rvalue.constructStruct ty _ => ty
  | Rvalue.constRv ty _ => ty
  | Rvalue.unaryBitwise ty _ _ => ty
  | Rvalue.binaryBitwise ty _ _ _ => ty
  | Rvalue.intUnaryArith ty _ _ => ty
  | Rvalue.intBinaryArith ty _ _ _ => ty
  | Rvalue.intComp ty _ _ _ => ty
  | Rvalue.concat ty _ => ty
  | Rvalue.repeatRv ty _ _ => ty
  | Rvalue.assignment ty => ty
  | Rvalue.var ty => ty
  | Rvalue.port ty => ty
  | Rvalue.member ty _ _ => ty
  | Rvalue.ternary ty _ _ _ => ty
  | Rvalue.shift ty _ _ _ _ => ty
  | Rvalue.reduction ty _ _ => ty
  | Rvalue.index ty => ty
  | Rvalue.errorRv ty => ty

/-- Modelled from the spec: `mir::Rvalue::is_error` (defined outside these
sources) holds of the `Error` opcode and of nodes of error type; the
evaluator's first step returns the tombstone for such nodes. -/
def Rvalue.isError (rv : Rvalue) : Bool :=
  (match rv with
   | Rvalue.errorRv _ => true
   | _ => false) || rv.ty.isError

/-- Evaluate a list of operand rvalues in order, threading diagnostics, as
the `collect()` calls of `ConstructArray` / `ConstructStruct` (the array's
`HashMap` is indexed densely by `0..n` and is modelled as the ordered
list). -/
def evalListWith (f : Rvalue → Option (ValueData × List Diag)) :
    List Rvalue → Option (List ValueData × List Diag)
  | [] => some ([], [])
  | v :: rest =>
    match f v with
    | none => none
    | some (x, d1) =>
      match evalListWith f rest with
      | none => none
      | some (xs, d2) => some (x :: xs, d1 ++ d2)

/-- The `Concat` arm's fold: `result := (result << operand width) | operand`;
`get_int().expect(..)` panics on any non-integer operand value, the error
tombstone included. -/
def concatFoldWith (f : Rvalue → Option (ValueData × List Diag)) :
    List Rvalue → Int → List Diag → Option (Int × List Diag)
  | [], acc, ds => some (acc, ds)
  | v :: rest, acc, ds =>
    let acc1 := bigShl acc (sbvSize v.ty)
    match f v with
    | none => none
    | some (x, d1) =>
      match x.getInt with
      | none => none
      | some i => concatFoldWith f rest (Int.lor acc1 i) (ds ++ d1)

/-- The `Repeat` arm's fold; `get_int().expect(..)` sits inside the loop, so
a zero count never panics. -/
def repeatFold (size : Nat) (vi : Option Int) : Nat → Int → Option Int
  | 0, acc => some acc
  | n + 1, acc =>
    match vi with
    | none => none
    | some i => repeatFold size vi n (Int.lor (bigShl acc size) i)

/-- `const_mir_rvalue_inner` (with `const_mir_rvalue`'s verbosity logging
stripped): fold an MIR rvalue to a value, collecting emitted diagnostics in
order.  `none` is a panic (including `unreachable!`, `expect` and the
`Index` arm's `bug_span!`), a non-terminating `Pow`, or fuel exhaustion of
the structural recursion. -/
def constMirRvalue : Nat → Rvalue → Option (ValueData × List Diag)
  | 0, _ => none
  | fuel + 1, mir =>
    let mirTy := mir.ty
    if mir.isError then some (make_error mirTy, [])
    else
      match mir with
      | Rvalue.castValueDomain _ value
      | Rvalue.castVectorToAtom _ value
      | Rvalue.castAtomToVector _ value
      | Rvalue.castSign _ value
      | Rvalue.truncate _ value
      | Rvalue.zeroExtend _ value
      | Rvalue.signExtend _ value =>
        match constMirRvalue fuel value with
        | none => none
        | some (v, ds) =>
          some (v.withTy mirTy, "cast ignored during constant evaluation" :: ds)
      | Rvalue.castToBool _ value =>
        match constMirRvalue fuel value with
        | none => none
        | some (v, ds) =>
          if v.isError then some (make_error mirTy, ds)
          else
            match make_int mirTy (if v.isTrue then 1 else 0) with
            | none => none
            | some r => some (r, ds)
      | Rvalue.constructArray _ values =>
        match evalListWith (constMirRvalue fuel) values with
        | none => none
        | some (vs, ds) =>
          match make_array mirTy vs with
          | none => none
          | some r => some (r, ds)
      | Rvalue.constructStruct _ values =>
        match evalListWith (constMirRvalue fuel) values with
        | none => none
        | some (vs, ds) =>
          match make_struct mirTy vs with
          | none => none
          | some r => some (r, ds)
      | Rvalue.constRv _ value => some (value, [])
      | Rvalue.unaryBitwise _ op arg =>
        match constMirRvalue fuel arg with
        | none => none
        | some (av, ds) =>
          if av.isError then some (make_error mirTy, ds)
          else
            match av.getInt with
            | none => none
            | some ai =>
              match make_int mirTy (const_unary_bitwise_int (sbvSize mirTy) op ai) with
              | none => none
              | some r => some (r, ds)
      | Rvalue.binaryBitwise _ op lhs rhs =>
        match constMirRvalue fuel lhs with
        | none => none
        | some (lv, dl) =>
          match constMirRvalue fuel rhs with
          | none => none
          | some (rv, dr) =>
            if lv.isError || rv.isError then some (make_error mirTy, dl ++ dr)
            else
              match lv.getInt, rv.getInt with
              | some li, some ri =>
                match make_int mirTy (const_binary_bitwise_int op li ri) with
                | none => none
                | some r => some (r, dl ++ dr)
              | _, _ => none
      | Rvalue.intUnaryArith _ op arg =>
        match constMirRvalue fuel arg with
        | none => none
        | some (av, ds) =>
          if av.isError then some (make_error mirTy, ds)
          else
            match av.getInt with
            | none => none
            | some ai =>
              match make_int mirTy (const_unary_arith_int op ai) with
              | none => none
              | some r => some (r, ds)
      | Rvalue.intBinaryArith _ op lhs rhs =>
        match constMirRvalue fuel lhs with
        | none => none
        | some (lv, dl) =>
          match constMirRvalue fuel rhs with
          | none => none
          | some (rv, dr) =>
            if lv.isError || rv.isError then some (make_error mirTy, dl ++ dr)
            else
              match lv.getInt, rv.getInt with
              | some li, some ri =>
                match const_binary_arith_int fuel op li ri with
                | none => none
                | some n =>
                  match make_int mirTy n with
                  | none => none
                  | some r => some (r, dl ++ dr)
              | _, _ => none
      | Rvalue.intComp _ op lhs rhs =>
        match constMirRvalue fuel lhs with
        | none => none
        | some (lv, dl) =>
          match constMirRvalue fuel rhs with
          | none => none
          | some (rv, dr) =>
            if lv.isError || rv.isError then some (make_error mirTy, dl ++ dr)
            else
              match lv.getInt, rv.getInt with
              | some li, some ri =>
                match make_int mirTy (const_comp_int op li ri) with
                | none => none
                | some r => some (r, dl ++ dr)
              | _, _ => none
      | Rvalue.concat _ values =>
        match concatFoldWith (constMirRvalue fuel) values 0 [] with
        | none => none
        | some (result, ds) =>
          match make_int mirTy result with
          | none => none
          | some r => some (r, ds)
      | Rvalue.repeatRv _ count value =>
        match constMirRvalue fuel value with
        | none => none
        | some (v, ds) =>
          if v.isError then some (make_error mirTy, ds)
          else
            match repeatFold (sbvSize value.ty) v.getInt count 0 with
            | none => none
            | some result =>
              match make_int mirTy result with
              | none => none
              | some r => some (r, ds)
      | Rvalue.assignment _ => some (make_error mirTy, ["value is not constant"])
      | Rvalue.var _ => some (make_error mirTy, ["value is not constant"])
      | Rvalue.port _ => some (make_error mirTy, ["value is not constant"])
      | Rvalue.member _ value field =>
        match constMirRvalue fuel value with
        | none => none
        | some (v, ds) =>
          if v.isError then some (make_error mirTy, ds)
          else
            match v with
            | ValueData.structOrArray _ fields =>
              match fields.get? field with
              | none => none
              | some fv => some (fv, ds)
            | _ => none
      | Rvalue.ternary _ cond trueValue falseValue =>
        match constMirRvalue fuel cond with
        | none => none
        | some (cv, dc) =>
          match constMirRvalue fuel trueValue with
          | none => none
          | some (tv, dt) =>
            match constMirRvalue fuel falseValue with
            | none => none
            | some (fv, df) =>
              some (if cv.isTrue then tv else fv, dc ++ dt ++ df)
      | Rvalue.shift _ op arith value amount =>
        match constMirRvalue fuel value with
        | none => none
        | some (vv, dv) =>
          match constMirRvalue fuel amount with
          | none => none
          | some (av, da) =>
            if vv.isError || av.isError then some (make_error mirTy, dv ++ da)
            else
              match vv.getInt, av.getInt with
              | some vi, some ai =>
                match make_int mirTy (const_shift_int op arith vi ai) with
                | none => none
                | some r => some (r, dv ++ da)
              | _, _ => none
      | Rvalue.reduction _ op arg =>
        match constMirRvalue fuel arg with
        | none => none
        | some (av, ds) =>
          if av.isError then some (make_error mirTy, ds)
          else
            match av.getInt with
            | none => none
            | some ai =>
              match make_int mirTy (const_reduction_int (sbvSize arg.ty) op ai) with
              | none => none
              | some r => some (r, ds)
      | Rvalue.index _ => none
      | Rvalue.errorRv _ => some (make_error mirTy, [])

/-- Shared abbreviation: the integer type of width `w`. -/
def tyW (w : Nat) : TypeKind := TypeKind.int w

/-- Shared abbreviation: an integer value of width `w` with all-zero special
bits, the exact shape `make_int` produces on `tyW w`. -/
def intVal (w : Nat) (n : Int) : ValueData :=
  ValueData.int (tyW w) n (List.replicate w false) (List.replicate w false)

/-- Shared abbreviation: a `Const` rvalue holding `intVal w n`. -/
def constInt (w : Nat) (n : Int) : Rvalue :=
  Rvalue.constRv (tyW w) (intVal w n)

-- Evaluator sanity checks against the spec's §8 scenarios.
example : make_int (tyW 8) 300 = some (intVal 8 44) := by rfl

example :
    (constMirRvalue 20 (Rvalue.intBinaryArith (tyW 8) IntBinaryArithOp.pow
      (constInt 8 3) (constInt 8 4))).map (fun p => (p.1.getInt, p.2)) =
    some (some 81, []) := by decide

example :
    (constMirRvalue 20 (Rvalue.reduction (tyW 1) BinaryBitwiseOp.xor
      (constInt 4 11))).map (fun p => (p.1.getInt, p.2)) =
    some (some 1, []) := by decide

example :
    (constMirRvalue 20 (Rvalue.reduction (tyW 1) BinaryBitwiseOp.xor
      (constInt 4 10))).map (fun p => (p.1.getInt, p.2)) =
    some (some 0, []) := by decide

/-- Negating the dividend negates the truncated remainder. -/
theorem tmod_neg_left (a b : Int) : (-a).tmod b = -(a.tmod b) := by
  rw [Int.tmod_def, Int.tmod_def, Int.neg_tdiv]
  ring

/-- Truncated remainders lie strictly between `-|b|` and `|b|`. -/
theorem tmod_bounds (a : Int) {b : Int} (hb : 0 < b) :
    -b < a.tmod b ∧ a.tmod b < b := by
  constructor
  · rcases le_or_lt 0 a with ha | ha
    · have := Int.tmod_nonneg b ha
      omega
    · have h1 : (-a).tmod b < b := Int.tmod_lt_of_pos (-a) hb
      have h2 : (-a).tmod b = -(a.tmod b) := tmod_neg_left a b
      omega
  · exact Int.tmod_lt_of_pos a hb

/-- C2, counterexample: at width 8 and value −1, `make_int` stores −1 (Rust's
`%` keeps the dividend's sign), while the claimed formula
`((n mod 2^w) + 2^w) mod 2^w` gives 255; the claimed bound `0 ≤ stored`
fails as well. -/
theorem C2_counterexample :
    (make_int (TypeKind.int 8) (-1)).map ValueData.getInt = some (some (-1)) ∧
    (((-1 : Int) % 2 ^ 8 + 2 ^ 8) % 2 ^ 8 = 255) ∧
    ¬ ((-1 : Int) = 255) ∧ ¬ ((0 : Int) ≤ -1) := by
  refine ⟨rfl, by decide, by decide, by decide⟩

/-- C2, amended: `make_int` on a width-`w` integer type stores the truncated
remainder `n tmod 2^w` (Rust's `BigInt` `%` keeps the dividend's sign), so
the stored value lies strictly between `-2^w` and `2^w`; the claimed
round-trip formula `((n mod 2^w) + 2^w) mod 2^w` together with the lower
bound `0 ≤ stored` holds exactly when `0 ≤ n` or `2^w` divides `n` (the
upper bound `stored < 2^w` always holds). -/
theorem C2_amended (w : Nat) (n : Int) :
    ∃ v : Int,
      make_int (TypeKind.int w) n =
        some (ValueData.int (TypeKind.int w) v
          (List.replicate w false) (List.replicate w false)) ∧
      v = n.tmod (2 ^ w) ∧
      -(2 ^ w) < v ∧ v < 2 ^ w ∧
      ((v = (n % 2 ^ w + 2 ^ w) % 2 ^ w ∧ 0 ≤ v) ↔
        (0 ≤ n ∨ (2 : Int) ^ w ∣ n)) := by
  have hpow : (0 : Int) < 2 ^ w := by positivity
  have hform : (n % 2 ^ w + 2 ^ w) % 2 ^ w = n % 2 ^ w := by
    have h4 : (n % 2 ^ w + 2 ^ w) % 2 ^ w = n % 2 ^ w % 2 ^ w := by
      have h := Int.add_mul_emod_self_left (n % 2 ^ w) (2 ^ w) 1
      rw [mul_one] at h
      exact h
    rw [h4]
    exact Int.emod_emod_of_dvd n dvd_rfl
  refine ⟨n.tmod (2 ^ w), ?_, rfl, (tmod_bounds n hpow).1, (tmod_bounds n hpow).2, ?_⟩
  · show make_int_special (TypeKind.int w) n _ _ = _
    simp [make_int_special, TypeKind.resolveName, bigShl, TypeKind.width, make_int]
  · rw [hform]
    constructor
    · rintro ⟨hv, hnn⟩
      by_cases hn : 0 ≤ n
      · exact Or.inl hn
      · right
        have hneg : n.tmod (2 ^ w) = -((-n).tmod (2 ^ w)) := by
          have h := tmod_neg_left (-n) (2 ^ w)
          rw [neg_neg] at h
          exact h
        have hpos2 : 0 ≤ (-n).tmod (2 ^ w) := Int.tmod_nonneg _ (by omega)
        have hz : n.tmod (2 ^ w) = 0 := by omega
        exact Int.dvd_of_tmod_eq_zero hz
    · rintro (hn | hdvd)
      · have h1 : n.tmod (2 ^ w) = n % 2 ^ w := Int.tmod_eq_emod hn (le_of_lt hpow)
        refine ⟨h1, ?_⟩
        rw [h1]
        exact Int.emod_nonneg n (by positivity)
      · have hz : n.tmod (2 ^ w) = 0 := Int.tmod_eq_zero_of_dvd hdvd
        have hz2 : n % 2 ^ w = 0 := Int.emod_eq_zero_of_dvd hdvd
        exact ⟨by rw [hz, hz2], by rw [hz]⟩

/-- C2, witness for the amended theorem at `w = 8`, `n = 300`. -/
theorem C2_amended_witness :
    ∃ v : Int,
      make_int (TypeKind.int 8) 300 =
        some (ValueData.int (TypeKind.int 8) v
          (List.replicate 8 false) (List.replicate 8 false)) ∧
      v = (300 : Int).tmod (2 ^ 8) ∧
      -(2 ^ 8) < v ∧ v < 2 ^ 8 ∧
      ((v = ((300 : Int) % 2 ^ 8 + 2 ^ 8) % 2 ^ 8 ∧ 0 ≤ v) ↔
        (0 ≤ (300 : Int) ∨ (2 : Int) ^ 8 ∣ 300)) :=
  C2_amended 8 300

/-- The spec's direction flip for negative shift amounts. -/
def flipShift : ShiftOp → ShiftOp
  | ShiftOp.left => ShiftOp.right
  | ShiftOp.right => ShiftOp.left

/-- The spec's "shift by `k` in the indicated direction" on bigints. -/
def shiftBy : ShiftOp → Int → Nat → Int
  | ShiftOp.left, v, k => bigShl v k
  | ShiftOp.right, v, k => bigShr v k

/-- C8: `const_shift_int` shifts by the amount's absolute value in the
indicated direction when the amount fits a machine-sized integer, flipping
the direction for negative amounts, and yields 0 otherwise. -/
theorem C8_shift_semantics (op : ShiftOp) (arith : Bool) (value amount : Int) :
    const_shift_int op arith value amount =
      if fitsIsize amount then
        shiftBy (if amount < 0 then flipShift op else op) value amount.natAbs
      else 0 := by
  cases op <;> simp only [const_shift_int, toIsize] <;>
    [skip; skip] <;>
  · by_cases hfit : fitsIsize amount
    · by_cases hneg : amount < 0
      · have h : (-amount).toNat = amount.natAbs := by omega
        simp [hfit, hneg, flipShift, shiftBy, h]
      · have h : amount.toNat = amount.natAbs := by omega
        simp [hfit, hneg, flipShift, shiftBy, h]
    · simp [hfit]

/-- From a negative count the `Pow` loop never reaches zero: every fuel runs
out. -/
theorem powLoop_neg (lhs : Int) (fuel : Nat) :
    ∀ (r cnt : Int), cnt < 0 → powLoop lhs fuel r cnt = none := by
  induction fuel with
  | zero => intro r cnt _; rfl
  | succ n ih =>
    intro r cnt h
    simp only [powLoop]
    rw [if_neg (by omega)]
    exact ih (r * lhs) (cnt - 1) (by omega)

/-- From a non-negative count `n`, fuel `n + 1` completes the `Pow` loop. -/
theorem powLoop_sufficient (lhs : Int) :
    ∀ (n : Nat) (r : Int), (powLoop lhs (n + 1) r (n : Int)).isSome := by
  intro n
  induction n with
  | zero => intro r; simp [powLoop]
  | succ m ih =>
    intro r
    simp only [powLoop]
    rw [if_neg (by omega)]
    have hc : ((m + 1 : Nat) : Int) - 1 = (m : Int) := by push_cast; ring
    rw [hc]
    exact ih (r * lhs)

/-- Reduction of the evaluator on a `Pow` node over constant integer
operands: everything but the iterated-multiply loop computes away. -/
theorem eval_pow_eq (w g : Nat) (lhs rhs : Int) :
    constMirRvalue (g + 2) (Rvalue.intBinaryArith (tyW w) IntBinaryArithOp.pow
        (constInt w lhs) (constInt w rhs)) =
      (powLoop lhs (g + 1) 1 rhs).map (fun n =>
        (ValueData.int (tyW w) (n.tmod (bigShl 1 w))
          (List.replicate w false) (List.replicate w false), [])) := by
  have base : constMirRvalue (g + 2) (Rvalue.intBinaryArith (tyW w)
      IntBinaryArithOp.pow (constInt w lhs) (constInt w rhs)) =
      (match powLoop lhs (g + 1) 1 rhs with
       | none => none
       | some n => some (ValueData.int (tyW w) (n.tmod (bigShl 1 w))
           (List.replicate w false) (List.replicate w false), ([] : List Diag))) := rfl
  rw [base]
  cases powLoop lhs (g + 1) 1 rhs <;> rfl

/-- C9: evaluation of `IntBinaryArith{Pow}` over constant integer operands
terminates (some fuel completes it) exactly when the exponent is
non-negative; for a negative exponent the decrementing loop never exits. -/
theorem C9_pow_termination (w : Nat) (lhs rhs : Int) :
    (∃ fuel, (constMirRvalue fuel (Rvalue.intBinaryArith (tyW w)
        IntBinaryArithOp.pow (constInt w lhs) (constInt w rhs))).isSome) ↔
      0 ≤ rhs := by
  constructor
  · rintro ⟨fuel, h⟩
    by_contra hneg
    match fuel, h with
    | 0, h => simp [constMirRvalue] at h
    | 1, h =>
      have : constMirRvalue 1 (Rvalue.intBinaryArith (tyW w)
          IntBinaryArithOp.pow (constInt w lhs) (constInt w rhs)) = none := rfl
      rw [this] at h
      simp at h
    | g + 2, h =>
      rw [eval_pow_eq, powLoop_neg lhs (g + 1) 1 rhs (by omega)] at h
      simp at h
  · intro hpos
    refine ⟨rhs.toNat + 2, ?_⟩
    rw [eval_pow_eq]
    have hc : ((rhs.toNat : Nat) : Int) = rhs := Int.toNat_of_nonneg hpos
    rw [show ∀ o : Option Int, ∀ f : Int → ValueData × List Diag,
          (o.map f).isSome = o.isSome by intro o f; cases o <;> rfl]
    rw [← hc]
    exact powLoop_sufficient lhs rhs.toNat 1

/-- C10: a `Div` or `Mod` whose right operand is the constant 0 makes the
evaluator panic — for every fuel the result is `none` (the unguarded bigint
division), never `some` of an `Error` tombstone and never a diagnostic. -/
theorem C10_div_mod_zero (w : Nat) (lhs : Int) (fuel : Nat) :
    constMirRvalue fuel (Rvalue.intBinaryArith (tyW w) IntBinaryArithOp.div
      (constInt w lhs) (constInt w 0)) = none ∧
    constMirRvalue fuel (Rvalue.intBinaryArith (tyW w) IntBinaryArithOp.mod
      (constInt w lhs) (constInt w 0)) = none := by
  match fuel with
  | 0 => exact ⟨rfl, rfl⟩
  | 1 => exact ⟨rfl, rfl⟩
  | g + 2 => exact ⟨rfl, rfl⟩

/-- An `Error`-kind value keeps its kind under a type replacement and becomes
the tombstone of the new type. -/
theorem kindErr_withTy (v : ValueData) (hv : v.kindIsError = true) (ty : TypeKind) :
    v.withTy ty = make_error ty := by
  cases v <;> simp_all [ValueData.kindIsError, ValueData.withTy, make_error]

/-- An `Error`-kind value is an error value. -/
theorem kindErr_isError (v : ValueData) (hv : v.kindIsError = true) :
    v.isError = true := by
  simp [ValueData.isError, hv]

/-- An `Error`-kind value is false, hence not true. -/
theorem kindErr_isTrue (v : ValueData) (hv : v.kindIsError = true) :
    v.isTrue = false := by
  cases v <;> simp_all [ValueData.kindIsError, ValueData.isTrue, ValueData.isFalse]

/-- An `Error`-kind value has no integer. -/
theorem kindErr_getInt (v : ValueData) (hv : v.kindIsError = true) :
    v.getInt = none := by
  cases v <;> simp_all [ValueData.kindIsError, ValueData.getInt]

/-- The `Concat` fold panics as soon as any operand evaluates to a value with
no integer (an `Error` tombstone in particular). -/
theorem concatFold_none (f : Rvalue → Option (ValueData × List Diag)) :
    ∀ (l : List Rvalue) (acc : Int) (ds : List Diag) (v : Rvalue)
      (vv : ValueData) (d : List Diag),
      v ∈ l → f v = some (vv, d) → vv.getInt = none →
      concatFoldWith f l acc ds = none := by
  intro l
  induction l with
  | nil => intro _ _ _ _ _ hmem; cases hmem
  | cons hd tl ih =>
    intro acc ds v vv d hmem hf hgi
    simp only [concatFoldWith]
    cases hfh : f hd with
    | none => rfl
    | some p =>
      obtain ⟨x, d1⟩ := p
      show (match x.getInt with
        | none => none
        | some i => concatFoldWith f tl (Int.lor (bigShl acc (sbvSize hd.ty)) i) (ds ++ d1)) = none
      cases hgix : x.getInt with
      | none => rfl
      | some i =>
        rcases List.mem_cons.mp hmem with heq | hmem2
        · subst heq
          rw [hf] at hfh
          injection hfh with hp
          have hx : vv = x := congrArg Prod.fst hp
          rw [← hx] at hgix
          rw [hgi] at hgix
          cases hgix
        · exact ih _ _ v vv d hmem2 hf hgi

/-- C1, counterexample: a `Ternary` whose condition operand evaluates to the
`Error` tombstone does not produce an `Error` result — the condition counts
as false and the false branch's (non-error) value is returned. -/
theorem C1_counterexample :
    constMirRvalue 2 (Rvalue.errorRv (tyW 8)) = some (make_error (tyW 8), []) ∧
    (make_error (tyW 8)).kindIsError = true ∧
    constMirRvalue 3 (Rvalue.ternary (tyW 8) (Rvalue.errorRv (tyW 8))
      (constInt 8 1) (constInt 8 0)) = some (intVal 8 0, []) ∧
    (intVal 8 0).kindIsError = false :=
  ⟨rfl, rfl, rfl, rfl⟩

/-- C1, amended: operand-error absorption holds for the opcodes with an
explicit check (`CastToBool`, `UnaryBitwise`, `BinaryBitwise`,
`IntUnaryArith`, `IntBinaryArith`, `IntComp`, `Shift`, `Reduction`,
`Repeat`, `Member`) and for the casts (which copy the `Error` kind to the
outer type, alongside the cast warning); `Ternary` instead treats an
`Error`-kind condition as false and returns the false branch's value, and
`Concat` panics on an `Error`-kind operand instead of absorbing it. -/
theorem C1_amended (ty : TypeKind) (hty : ty.isError = false) (fuel : Nat) :
    ((∀ value v ds, constMirRvalue fuel value = some (v, ds) →
        v.kindIsError = true →
        constMirRvalue (fuel + 1) (Rvalue.castValueDomain ty value) =
          some (make_error ty, "cast ignored during constant evaluation" :: ds)) ∧
     (∀ value v ds, constMirRvalue fuel value = some (v, ds) →
        v.kindIsError = true →
        constMirRvalue (fuel + 1) (Rvalue.castVectorToAtom ty value) =
          some (make_error ty, "cast ignored during constant evaluation" :: ds)) ∧
     (∀ value v ds, constMirRvalue fuel value = some (v, ds) →
        v.kindIsError = true →
        constMirRvalue (fuel + 1) (Rvalue.castAtomToVector ty value) =
          some (make_error ty, "cast ignored during constant evaluation" :: ds)) ∧
     (∀ value v ds, constMirRvalue fuel value = some (v, ds) →
        v.kindIsError = true →
        constMirRvalue (fuel + 1) (Rvalue.castSign ty value) =
          some (make_error ty, "cast ignored during constant evaluation" :: ds)) ∧
     (∀ value v ds, constMirRvalue fuel value = some (v, ds) →
        v.kindIsError = true →
        constMirRvalue (fuel + 1) (Rvalue.truncate ty value) =
          some (make_error ty, "cast ignored during constant evaluation" :: ds)) ∧
     (∀ value v ds, constMirRvalue fuel value = some (v, ds) →
        v.kindIsError = true →
        constMirRvalue (fuel + 1) (Rvalue.zeroExtend ty value) =
          some (make_error ty, "cast ignored during constant evaluation" :: ds)) ∧
     (∀ value v ds, constMirRvalue fuel value = some (v, ds) →
        v.kindIsError = true →
        constMirRvalue (fuel + 1) (Rvalue.signExtend ty value) =
          some (make_error ty, "cast ignored during constant evaluation" :: ds))) ∧
    (∀ value v ds, constMirRvalue fuel value = some (v, ds) →
       v.kindIsError = true →
       constMirRvalue (fuel + 1) (Rvalue.castToBool ty value) =
         some (make_error ty, ds)) ∧
    (∀ op arg v ds, constMirRvalue fuel arg = some (v, ds) →
       v.kindIsError = true →
       constMirRvalue (fuel + 1) (Rvalue.unaryBitwise ty op arg) =
         some (make_error ty, ds)) ∧
    (∀ op lhs rhs lv dl rv dr,
       constMirRvalue fuel lhs = some (lv, dl) →
       constMirRvalue fuel rhs = some (rv, dr) →
       (lv.kindIsError = true ∨ rv.kindIsError = true) →
       constMirRvalue (fuel + 1) (Rvalue.binaryBitwise ty op lhs rhs) =
         some (make_error ty, dl ++ dr)) ∧
    (∀ op arg v ds, constMirRvalue fuel arg = some (v, ds) →
       v.kindIsError = true →
       constMirRvalue (fuel + 1) (Rvalue.intUnaryArith ty op arg) =
         some (make_error ty, ds)) ∧
    (∀ op lhs rhs lv dl rv dr,
       constMirRvalue fuel lhs = some (lv, dl) →
       constMirRvalue fuel rhs = some (rv, dr) →
       (lv.kindIsError = true ∨ rv.kindIsError = true) →
       constMirRvalue (fuel + 1) (Rvalue.intBinaryArith ty op lhs rhs) =
         some (make_error ty, dl ++ dr)) ∧
    (∀ op lhs rhs lv dl rv dr,
       constMirRvalue fuel lhs = some (lv, dl) →
       constMirRvalue fuel rhs = some (rv, dr) →
       (lv.kindIsError = true ∨ rv.kindIsError = true) →
       constMirRvalue (fuel + 1) (Rvalue.intComp ty op lhs rhs) =
         some (make_error ty, dl ++ dr)) ∧
    (∀ op ar value amount vv dv av da,
       constMirRvalue fuel value = some (vv, dv) →
       constMirRvalue fuel amount = some (av, da) →
       (vv.kindIsError = true ∨ av.kindIsError = true) →
       constMirRvalue (fuel + 1) (Rvalue.shift ty op ar value amount) =
         some (make_error ty, dv ++ da)) ∧
    (∀ op arg v ds, constMirRvalue fuel arg = some (v, ds) →
       v.kindIsError = true →
       constMirRvalue (fuel + 1) (Rvalue.reduction ty op arg) =
         some (make_error ty, ds)) ∧
    (∀ count value v ds, constMirRvalue fuel value = some (v, ds) →
       v.kindIsError = true →
       constMirRvalue (fuel + 1) (Rvalue.repeatRv ty count value) =
         some (make_error ty, ds)) ∧
    (∀ value field v ds, constMirRvalue fuel value = some (v, ds) →
       v.kindIsError = true →
       constMirRvalue (fuel + 1) (Rvalue.member ty value field) =
         some (make_error ty, ds)) ∧
    (∀ cond tv fv cv dc tvv dt fvv df,
       constMirRvalue fuel cond = some (cv, dc) →
       cv.kindIsError = true →
       constMirRvalue fuel tv = some (tvv, dt) →
       constMirRvalue fuel fv = some (fvv, df) →
       constMirRvalue (fuel + 1) (Rvalue.ternary ty cond tv fv) =
         some (fvv, dc ++ dt ++ df)) ∧
    (∀ values v vv d, v ∈ values →
       constMirRvalue fuel v = some (vv, d) →
       vv.kindIsError = true →
       constMirRvalue (fuel + 1) (Rvalue.concat ty values) = none) := by
  refine ⟨⟨?_, ?_, ?_, ?_, ?_, ?_, ?_⟩, ?_, ?_, ?_, ?_, ?_, ?_, ?_, ?_, ?_, ?_, ?_, ?_⟩
  case _ =>
    intro value v ds hv hk
    have h1 : (Rvalue.castValueDomain ty value).isError = false := by
      simp [Rvalue.isError, Rvalue.ty, hty]
    simp only [constMirRvalue, h1, Bool.false_eq_true, if_false, hv, Rvalue.ty]
    rw [kindErr_withTy v hk]
  case _ =>
    intro value v ds hv hk
    have h1 : (Rvalue.castVectorToAtom ty value).isError = false := by
      simp [Rvalue.isError, Rvalue.ty, hty]
    simp only [constMirRvalue, h1, Bool.false_eq_true, if_false, hv, Rvalue.ty]
    rw [kindErr_withTy v hk]
  case _ =>
    intro value v ds hv hk
    have h1 : (Rvalue.castAtomToVector ty value).isError = false := by
      simp [Rvalue.isError, Rvalue.ty, hty]
    simp only [constMirRvalue, h1, Bool.false_eq_true, if_false, hv, Rvalue.ty]
    rw [kindErr_withTy v hk]
  case _ =>
    intro value v ds hv hk
    have h1 : (Rvalue.castSign ty value).isError = false := by
      simp [Rvalue.isError, Rvalue.ty, hty]
    simp only [constMirRvalue, h1, Bool.false_eq_true, if_false, hv, Rvalue.ty]
    rw [kindErr_withTy v hk]
  case _ =>
    intro value v ds hv hk
    have h1 : (Rvalue.truncate ty value).isError = false := by
      simp [Rvalue.isError, Rvalue.ty, hty]
    simp only [constMirRvalue, h1, Bool.false_eq_true, if_false, hv, Rvalue.ty]
    rw [kindErr_withTy v hk]
  case _ =>
    intro value v ds hv hk
    have h1 : (Rvalue.zeroExtend ty value).isError = false := by
      simp [Rvalue.isError, Rvalue.ty, hty]
    simp only [constMirRvalue, h1, Bool.false_eq_true, if_false, hv, Rvalue.ty]
    rw [kindErr_withTy v hk]
  case _ =>
    intro value v ds hv hk
    have h1 : (Rvalue.signExtend ty value).isError = false := by
      simp [Rvalue.isError, Rvalue.ty, hty]
    simp only [constMirRvalue, h1, Bool.false_eq_true, if_false, hv, Rvalue.ty]
    rw [kindErr_withTy v hk]
  case _ =>
    intro value v ds hv hk
    have h1 : (Rvalue.castToBool ty value).isError = false := by
      simp [Rvalue.isError, Rvalue.ty, hty]
    simp only [constMirRvalue, h1, Bool.false_eq_true, if_false, hv, Rvalue.ty,
      kindErr_isError v hk, if_true]
  case _ =>
    intro op arg v ds hv hk
    have h1 : (Rvalue.unaryBitwise ty op arg).isError = false := by
      simp [Rvalue.isError, Rvalue.ty, hty]
    simp only [constMirRvalue, h1, Bool.false_eq_true, if_false, hv, Rvalue.ty,
      kindErr_isError v hk, if_true]
  case _ =>
    intro op lhs rhs lv dl rv dr hl hr hk
    have h1 : (Rvalue.binaryBitwise ty op lhs rhs).isError = false := by
      simp [Rvalue.isError, Rvalue.ty, hty]
    have h2 : (lv.isError || rv.isError) = true := by
      rcases hk with hk | hk
      · simp [kindErr_isError _ hk]
      · simp [kindErr_isError _ hk]
    simp only [constMirRvalue, h1, Bool.false_eq_true, if_false, hl, hr, h2,
      if_true, Rvalue.ty]
  case _ =>
    intro op arg v ds hv hk
    have h1 : (Rvalue.intUnaryArith ty op arg).isError = false := by
      simp [Rvalue.isError, Rvalue.ty, hty]
    simp only [constMirRvalue, h1, Bool.false_eq_true, if_false, hv, Rvalue.ty,
      kindErr_isError v hk, if_true]
  case _ =>
    intro op lhs rhs lv dl rv dr hl hr hk
    have h1 : (Rvalue.intBinaryArith ty op lhs rhs).isError = false := by
      simp [Rvalue.isError, Rvalue.ty, hty]
    have h2 : (lv.isError || rv.isError) = true := by
      rcases hk with hk | hk
      · simp [kindErr_isError _ hk]
      · simp [kindErr_isError _ hk]
    simp only [constMirRvalue, h1, Bool.false_eq_true, if_false, hl, hr, h2,
      if_true, Rvalue.ty]
  case _ =>
    intro op lhs rhs lv dl rv dr hl hr hk
    have h1 : (Rvalue.intComp ty op lhs rhs).isError = false := by
      simp [Rvalue.isError, Rvalue.ty, hty]
    have h2 : (lv.isError || rv.isError) = true := by
      rcases hk with hk | hk
      · simp [kindErr_isError _ hk]
      · simp [kindErr_isError _ hk]
    simp only [constMirRvalue, h1, Bool.false_eq_true, if_false, hl, hr, h2,
      if_true, Rvalue.ty]
  case _ =>
    intro op ar value amount vv dv av da hv ha hk
    have h1 : (Rvalue.shift ty op ar value amount).isError = false := by
      simp [Rvalue.isError, Rvalue.ty, hty]
    have h2 : (vv.isError || av.isError) = true := by
      rcases hk with hk | hk
      · simp [kindErr_isError _ hk]
      · simp [kindErr_isError _ hk]
    simp only [constMirRvalue, h1, Bool.false_eq_true, if_false, hv, ha, h2,
      if_true, Rvalue.ty]
  case _ =>
    intro op arg v ds hv hk
    have h1 : (Rvalue.reduction ty op arg).isError = false := by
      simp [Rvalue.isError, Rvalue.ty, hty]
    simp only [constMirRvalue, h1, Bool.false_eq_true, if_false, hv, Rvalue.ty,
      kindErr_isError v hk, if_true]
  case _ =>
    intro count value v ds hv hk
    have h1 : (Rvalue.repeatRv ty count value).isError = false := by
      simp [Rvalue.isError, Rvalue.ty, hty]
    simp only [constMirRvalue, h1, Bool.false_eq_true, if_false, hv, Rvalue.ty,
      kindErr_isError v hk, if_true]
  case _ =>
    intro value field v ds hv hk
    have h1 : (Rvalue.member ty value field).isError = false := by
      simp [Rvalue.isError, Rvalue.ty, hty]
    simp only [constMirRvalue, h1, Bool.false_eq_true, if_false, hv, Rvalue.ty,
      kindErr_isError v hk, if_true]
  case _ =>
    intro cond tv fv cv dc tvv dt fvv df hc hk ht hf
    have h1 : (Rvalue.ternary ty cond tv fv).isError = false := by
      simp [Rvalue.isError, Rvalue.ty, hty]
    simp only [constMirRvalue, h1, Bool.false_eq_true, if_false, hc, ht, hf,
      kindErr_isTrue cv hk, Rvalue.ty, if_false]
  case _ =>
    intro values v vv d hmem hf hk
    have h1 : (Rvalue.concat ty values).isError = false := by
      simp [Rvalue.isError, Rvalue.ty, hty]
    simp only [constMirRvalue, h1, Bool.false_eq_true, if_false]
    rw [concatFold_none (constMirRvalue fuel) values 0 [] v vv d hmem hf
      (kindErr_getInt vv hk)]

/-- C1, witness: the amended theorem applied at concrete inputs — a cast of
an error operand, an `Add` with an error left operand, and a `Concat` over a
single error operand. -/
theorem C1_amended_witness :
    constMirRvalue 3 (Rvalue.castValueDomain (tyW 8) (Rvalue.errorRv (tyW 4))) =
      some (make_error (tyW 8), ["cast ignored during constant evaluation"]) ∧
    constMirRvalue 3 (Rvalue.intBinaryArith (tyW 8) IntBinaryArithOp.add
      (Rvalue.errorRv (tyW 8)) (constInt 8 1)) = some (make_error (tyW 8), []) ∧
    constMirRvalue 3 (Rvalue.concat (tyW 8) [Rvalue.errorRv (tyW 4)]) = none := by
  refine ⟨?_, ?_, ?_⟩
  · exact (C1_amended (tyW 8) rfl 2).1.1 (Rvalue.errorRv (tyW 4))
      (make_error (tyW 4)) [] rfl rfl
  · exact (C1_amended (tyW 8) rfl 2).2.2.2.2.2.1 IntBinaryArithOp.add
      (Rvalue.errorRv (tyW 8)) (constInt 8 1) (make_error (tyW 8)) []
      (intVal 8 1) [] rfl rfl (Or.inl rfl)
  · exact (C1_amended (tyW 8) rfl 2).2.2.2.2.2.2.2.2.2.2.2.2
      [Rvalue.errorRv (tyW 4)] (Rvalue.errorRv (tyW 4)) (make_error (tyW 4))
      [] (List.Mem.head _) rfl rfl

/-- The spec's `else` transition on the conditional stack: pop, then push
`Enabled` if the top was `Disabled` and `Done` if it was `Enabled` or
`Done`; an empty stack is fatal (`none`). -/
def elseTransition : List Defcond → Option (List Defcond)
  | Defcond.disabled :: rest => some (Defcond.enabled :: rest)
  | Defcond.enabled :: rest => some (Defcond.done :: rest)
  | Defcond.done :: rest => some (Defcond.done :: rest)
  | [] => none

/-- The spec's `endif` transition: pop; an empty stack is fatal (`none`). -/
def endifTransition : List Defcond → Option (List Defcond)
  | _ :: rest => some rest
  | [] => none

/-- C7: for every state — in particular whether or not the surrounding region
is active, since no inactivity test occurs — the `else` and `endif` arms of
`handle_directive` realise exactly the spec transitions on the conditional
stack, with the fatal diagnostic on an empty stack; nothing else in the
state changes. -/
theorem C7_else_endif (fuel : Nat) (sp : String) (s : PState) :
    (handleDirective fuel "else" sp s =
      match elseTransition s.defcondStack with
      | some st => some ({ s with defcondStack := st }, none)
      | none =>
        some (s, some "found else without any preceeding ifdef, ifndef, or elsif directive")) ∧
    (handleDirective fuel "endif" sp s =
      match endifTransition s.defcondStack with
      | some st => some ({ s with defcondStack := st }, none)
      | none =>
        some (s, some "found endif without any preceeding ifdef, ifndef, else, or elsif directive")) := by
  constructor
  · have hd : directiveOf "else" = Directive.elseD := rfl
    simp only [handleDirective, hd]
    cases hs : s.defcondStack with
    | nil => rfl
    | cons c rest => cases c <;> rfl
  · have hd : directiveOf "endif" = Directive.endifD := rfl
    simp only [handleDirective, hd]
    cases hs : s.defcondStack with
    | nil => rfl
    | cons c rest => cases c <;> rfl

/-- An inactive state (top of the conditional stack `Disabled`) whose next
tokens are a backtick, the text `endif`, a newline and the text `foo`; used
to exhibit the `timescale` arm running while inactive. -/
def c4State : PState :=
  { stack := [[(CatTokenKind.text, "endif"), (CatTokenKind.newline, "\n"),
               (CatTokenKind.text, "foo")]],
    token := some (CatTokenKind.symbol backtickChar, "`"),
    macroDefs := [], macroStack := [], fs := [],
    defcondStack := [Defcond.disabled], dirs := Directives.default }

/-- The state left behind by the C4 counterexample run: the `endif` line has
been consumed up to (and excluding) the newline. -/
def c4After : PState :=
  { stack := [[(CatTokenKind.text, "foo")]],
    token := some (CatTokenKind.newline, "\n"),
    macroDefs := [], macroStack := [], fs := [],
    defcondStack := [Defcond.disabled], dirs := Directives.default }

/-- C4, counterexample: while inactive, the `timescale` directive is not
"silently discarded with no effect on state": its arm runs unconditionally
and consumes every token up to the next newline — here swallowing a backtick
and an `endif` text token that the claim says would be processed. -/
theorem C4_counterexample :
    isInactive c4State = true ∧
    handleDirective 10 "timescale" "x" c4State ≠ some (c4State, none) ∧
    handleDirective 10 "timescale" "x" c4State = some (c4After, none) := by
  refine ⟨rfl, by decide, by decide⟩

/-- C4, amended: while the preprocessor is inactive, every directive other
than the conditionals (`ifdef`, `ifndef`, `elsif`, `else`, `endif`) **and**
`timescale` is a no-op — `handle_directive` returns with the state unchanged
and no diagnostic; `timescale` is instead processed regardless of activity,
consuming tokens up to the next newline; and the main loop silently discards
every non-backtick token while inactive. -/
theorem C4_amended :
    (∀ (fuel : Nat) (dirName sp : String) (s : PState),
      isInactive s = true →
      directiveOf dirName ∉
        ([Directive.ifdef, Directive.ifndef, Directive.elsifD, Directive.elseD,
          Directive.endifD, Directive.timescale] : List Directive) →
      handleDirective fuel dirName sp s = some (s, none)) ∧
    (∀ (fuel : Nat) (dirName sp : String) (s : PState),
      directiveOf dirName = Directive.timescale →
      handleDirective fuel dirName sp s =
        (timescaleLoop fuel s).map (fun s1 => (s1, none))) ∧
    (∀ (fuel : Nat) (s : PState) (k : CatTokenKind) (sp : String),
      isInactive s = true →
      s.token = some (k, sp) →
      (∀ c, k = CatTokenKind.symbol c → c ≠ backtickChar) →
      nextLoop (fuel + 1) s = nextLoop fuel (bump s)) := by
  refine ⟨?_, ?_, ?_⟩
  · intro fuel dirName sp s hin hnot
    cases hd : directiveOf dirName <;>
      first
        | (simp [handleDirective, hd, hin]; done)
        | (rw [hd] at hnot; simp at hnot)
  · intro fuel dirName sp s hd
    simp only [handleDirective, hd]
    cases timescaleLoop fuel s <;> rfl
  · intro fuel s k sp hin htok hnb
    cases k with
    | symbol c =>
      have hc : ¬ c = backtickChar := hnb c rfl
      simp only [nextLoop, htok]
      rw [if_neg hc, hin]
      rfl
    | text => simp only [nextLoop, htok]; rw [hin]; rfl
    | digits => simp only [nextLoop, htok]; rw [hin]; rfl
    | whitespace => simp only [nextLoop, htok]; rw [hin]; rfl
    | newline => simp only [nextLoop, htok]; rw [hin]; rfl
    | comment => simp only [nextLoop, htok]; rw [hin]; rfl

/-- C4, witness: the amended theorem applied concretely — an inactive state
in which a `define` directive is a no-op, the `timescale` run from the
counterexample state, and a discarded text token. -/
theorem C4_amended_witness :
    handleDirective 7 "define" "x" c4State = some (c4State, none) ∧
    handleDirective 10 "timescale" "x" c4State =
      (timescaleLoop 10 c4State).map (fun s1 => (s1, none)) ∧
    nextLoop 4 { c4State with token := some (CatTokenKind.text, "foo") } =
      nextLoop 3 (bump { c4State with token := some (CatTokenKind.text, "foo") }) := by
  refine ⟨?_, ?_, ?_⟩
  · exact C4_amended.1 7 "define" "x" c4State rfl (by decide)
  · exact C4_amended.2.1 10 "timescale" "x" c4State rfl
  · exact C4_amended.2.2 3 _ CatTokenKind.text "foo" rfl rfl
      (fun c hc => by cases hc)

/-- The token categorisation of an input consisting of a bare `else`
directive followed by whitespace and text: the directive is a fatal error
(no matching opener), and a text token follows. -/
def c3Input : List Token :=
  [(CatTokenKind.symbol backtickChar, "`"), (CatTokenKind.text, "else"),
   (CatTokenKind.whitespace, " "), (CatTokenKind.text, "foo")]

/-- C3, counterexample: the call that hits the unmatched `else` yields
`Err`, yet the very next call on the returned state yields an `Ok` token —
the iterator does not cease after a fatal error. -/
theorem C3_counterexample :
    ((nextToken 20 (initState c3Input)).bind fun r1 =>
      (nextToken 20 r1.2).map fun r2 => (r1.1, r2.1)) =
    some
      (some (Except.error
        "found else without any preceeding ifdef, ifndef, or elsif directive"),
       some (Except.ok (CatTokenKind.whitespace, " "))) := by
  rfl

/-- A second input of the same shape, a bare `endif` followed by text, used
to state the amended behaviour. -/
def c3bInput : List Token :=
  [(CatTokenKind.symbol backtickChar, "`"), (CatTokenKind.text, "endif"),
   (CatTokenKind.whitespace, " "), (CatTokenKind.text, "bar")]

/-- C3, amended: `next()` returns `Some(Err(..))` for the call that
encounters the fatal error, but the iterator is not fused — the preprocessor
state (with all mutations made before the failure) is retained, and a
subsequent call can yield further `Ok` tokens, as on a bare `endif` followed
by text. -/
theorem C3_amended :
    ((nextToken 20 (initState c3bInput)).bind fun r1 =>
      (nextToken 20 r1.2).map fun r2 => (r1.1, r2.1)) =
    some
      (some (Except.error
        "found endif without any preceeding ifdef, ifndef, else, or elsif directive"),
       some (Except.ok (CatTokenKind.whitespace, " "))) := by
  rfl

/-- Folding `cons` pushes a list in order: the macro stack after
`extend(xs.rev())` has the original elements of `xs` on top in order. -/
theorem vecExtend_reverse (l st : List Token) : vecExtend st l.reverse = l ++ st := by
  have key : ∀ (xs acc : List Token),
      xs.foldl (fun a x => x :: a) acc = xs.reverse ++ acc := by
    intro xs
    induction xs with
    | nil => intro acc; rfl
    | cons x rest ih =>
      intro acc
      simp only [List.foldl_cons, ih, List.reverse_cons, List.append_assoc,
        List.singleton_append]
  unfold vecExtend
  rw [key, List.reverse_reverse]

/-- `subst` exactly as the spec words it: a body token of kind `Text` whose
extracted string is a parameter name becomes that argument's captured token
sequence, every other token is emitted verbatim. -/
def substSpec (params : List (String × List Token)) : Token → List Token
  | (CatTokenKind.text, sp) =>
    match params.lookup sp with
    | some sub => sub
    | none => [(CatTokenKind.text, sp)]
  | t => [t]

/-- The source's replacement fold is the spec's pointwise substitution. -/
theorem buildReplacement_flatMap (body : List Token)
    (params : List (String × List Token)) :
    buildReplacement body params = body.flatMap (substSpec params) := by
  induction body with
  | nil => rfl
  | cons t rest ih =>
    obtain ⟨k, sp⟩ := t
    cases k <;> simp only [buildReplacement, ih, List.flatMap_cons, substSpec]

/-- With no captured parameters the replacement is the body verbatim. -/
theorem buildReplacement_nil (body : List Token) :
    buildReplacement body [] = body := by
  induction body with
  | nil => rfl
  | cons t rest ih =>
    obtain ⟨k, sp⟩ := t
    cases k <;> simp only [buildReplacement, ih, List.lookup] <;> rfl

/-- The tokens the preprocessor will serve next, in order: the look-ahead
followed by successive `bump`s. -/
def serveTokens : Nat → PState → List Token
  | 0, _ => []
  | n + 1, s =>
    match s.token with
    | some t => t :: serveTokens n (bump s)
    | none => []

/-- Serving after a `bump` pops the macro stack in order. -/
theorem serve_bump (xs : List Token) : ∀ (n : Nat) (s : PState),
    s.macroStack = xs → n ≤ xs.length → serveTokens n (bump s) = xs.take n := by
  induction xs with
  | nil =>
    intro n s h hle
    cases n with
    | zero => rfl
    | succ m => simp at hle
  | cons x rest ih =>
    intro n s h hle
    cases n with
    | zero => rfl
    | succ m =>
      have hb : bump s = { s with token := some x, macroStack := rest } := by
        simp [bump, h]
      rw [hb]
      simp only [serveTokens, List.take_succ_cons]
      congr 1
      exact ih m _ rfl (by simp at hle; omega)

/-- Expansion restated through the replacement list: the look-ahead is pushed
first, the (substituted) body in reverse above it, and the final `bump` pops
from that stack. -/
theorem pushExpansion_eq (makro : Makro) (params : List (String × List Token))
    (s : PState) (la : Token) (h : s.token = some la) :
    pushExpansion makro params s =
      bump { s with macroStack :=
        buildReplacement makro.body params ++ la :: s.macroStack } := by
  unfold pushExpansion
  rw [h]
  dsimp only
  by_cases hp : params.isEmpty
  · have hpn : params = [] := List.isEmpty_iff.mp hp
    subst hpn
    rw [if_pos hp, vecExtend_reverse, buildReplacement_nil]
  · rw [if_neg hp, vecExtend_reverse]

/-- Taking one past a prefix: the prefix followed by the next element. -/
theorem take_len_succ_append (l : List Token) (x : Token) (r : List Token) :
    (l ++ x :: r).take (l.length + 1) = l ++ [x] := by
  rw [List.take_append_eq_append_take]
  simp

/-- C5: after a macro invocation the served token stream is exactly the
concatenation over the body of `subst(body_i, A)` — parameter `Text` tokens
replaced by their captured sequences, everything else verbatim — followed by
the original look-ahead token that came after the invocation. -/
theorem C5_macro_expansion (makro : Makro) (params : List (String × List Token))
    (s : PState) (la : Token) (h : s.token = some la) :
    serveTokens ((makro.body.flatMap (substSpec params)).length + 1)
        (pushExpansion makro params s) =
      makro.body.flatMap (substSpec params) ++ [la] := by
  rw [pushExpansion_eq makro params s la h]
  rw [serve_bump (buildReplacement makro.body params ++ la :: s.macroStack) _ _ rfl
    (by rw [buildReplacement_flatMap]; simp)]
  rw [buildReplacement_flatMap]
  exact take_len_succ_append _ _ _

/-- The state a C5 invocation is applied to in the witness: the look-ahead is
a newline, the macro stack empty. -/
def c5State : PState :=
  { stack := [], token := some (CatTokenKind.newline, "\n"),
    macroDefs := [], macroStack := [], fs := [], defcondStack := [],
    dirs := Directives.default }

/-- C5, witness: the expansion of `foo(x) = x +` invoked with `x := 12`,
applied at the concrete state; the served stream is `12 +` then the
newline. -/
theorem C5_witness :
    serveTokens ((([(CatTokenKind.text, "x"), (CatTokenKind.symbol '+', "+")]).flatMap
        (substSpec [("x", [(CatTokenKind.digits, "12")])])).length + 1)
      (pushExpansion
        (Makro.mk "foo" "foo" [MacroArg.mk "x" "x"]
          [(CatTokenKind.text, "x"), (CatTokenKind.symbol '+', "+")])
        [("x", [(CatTokenKind.digits, "12")])] c5State) =
      ([(CatTokenKind.text, "x"), (CatTokenKind.symbol '+', "+")]).flatMap
        (substSpec [("x", [(CatTokenKind.digits, "12")])]) ++
        [(CatTokenKind.newline, "\n")] :=
  C5_macro_expansion
    (Makro.mk "foo" "foo" [MacroArg.mk "x" "x"]
      [(CatTokenKind.text, "x"), (CatTokenKind.symbol '+', "+")])
    [("x", [(CatTokenKind.digits, "12")])] c5State (CatTokenKind.newline, "\n") rfl

/-- The define-body loop only appends: its result extends the accumulator. -/
theorem defineBodyLoop_prefix :
    ∀ (fuel : Nat) (s : PState) (acc body : List Token) (s' : PState),
      defineBodyLoop fuel s acc = some (body, s') →
      ∃ suffix, body = acc ++ suffix := by
  intro fuel
  induction fuel with
  | zero => intro s acc body s' h; cases h
  | succ f ih =>
    intro s acc body s' h
    simp only [defineBodyLoop] at h
    match htok : s.token with
    | some (CatTokenKind.newline, sp) =>
      rw [htok] at h
      dsimp only at h
      injection h with h1
      rw [Prod.mk.injEq] at h1
      exact ⟨[], by simp [h1.1.symm]⟩
    | some (CatTokenKind.symbol c, sp) =>
      rw [htok] at h
      dsimp only at h
      by_cases hc : c = backslashChar
      · rw [if_pos hc] at h
        exact ih _ _ _ _ h
      · rw [if_neg hc] at h
        obtain ⟨suf, hsuf⟩ := ih _ _ _ _ h
        exact ⟨(CatTokenKind.symbol c, sp) :: suf, by simp [hsuf]⟩
    | some (CatTokenKind.text, sp) =>
      rw [htok] at h
      dsimp only at h
      obtain ⟨suf, hsuf⟩ := ih _ _ _ _ h
      exact ⟨(CatTokenKind.text, sp) :: suf, by simp [hsuf]⟩
    | some (CatTokenKind.digits, sp) =>
      rw [htok] at h
      dsimp only at h
      obtain ⟨suf, hsuf⟩ := ih _ _ _ _ h
      exact ⟨(CatTokenKind.digits, sp) :: suf, by simp [hsuf]⟩
    | some (CatTokenKind.whitespace, sp) =>
      rw [htok] at h
      dsimp only at h
      obtain ⟨suf, hsuf⟩ := ih _ _ _ _ h
      exact ⟨(CatTokenKind.whitespace, sp) :: suf, by simp [hsuf]⟩
    | some (CatTokenKind.comment, sp) =>
      rw [htok] at h
      dsimp only at h
      obtain ⟨suf, hsuf⟩ := ih _ _ _ _ h
      exact ⟨(CatTokenKind.comment, sp) :: suf, by simp [hsuf]⟩
    | none =>
      rw [htok] at h
      dsimp only at h
      injection h with h1
      rw [Prod.mk.injEq] at h1
      exact ⟨[], by simp [h1.1.symm]⟩

/-- A successful `finishDefine` is a successful body parse followed by the
macro-table insert. -/
theorem finishDefine_spec (fuel : Nat) (name : String) (args : List MacroArg)
    (s : PState) (s4 : PState) (d : Option Diag)
    (h : finishDefine fuel name args s = some (s4, d)) :
    d = none ∧ ∃ body s5,
      defineBodyLoop fuel (skipOneWs s) [] = some (body, s5) ∧
      s4 = { s5 with macroDefs := listInsert name (Makro.mk name name args body) s5.macroDefs } := by
  unfold finishDefine at h
  dsimp only at h
  cases hbody : defineBodyLoop fuel (skipOneWs s) [] with
  | none => rw [hbody] at h; cases h
  | some p =>
    obtain ⟨body, s5⟩ := p
    rw [hbody] at h
    dsimp only at h
    injection h with h1
    rw [Prod.mk.injEq] at h1
    exact ⟨h1.2.symm, body, s5, rfl, h1.1.symm⟩

/-- Lookup after an insert-with-overwrite finds the inserted value. -/
theorem lookup_listInsert (k : String) (v : Makro) :
    ∀ (defs : List (String × Makro)), (listInsert k v defs).lookup k = some v := by
  intro defs
  induction defs with
  | nil => simp [listInsert, List.lookup]
  | cons p rest ih =>
    obtain ⟨k1, w⟩ := p
    by_cases hk : k1 = k
    · simp [listInsert, hk, List.lookup]
    · simp only [listInsert, if_neg hk, List.lookup]
      have hne : (k == k1) = false := beq_eq_false_iff_ne.mpr (Ne.symm hk)
      rw [hne]
      exact ih

/-- C6: in the `define` handler, after the macro name has been read
(`tryEatName` result given as a hypothesis), a parameter list is parsed iff
the very next token is `Symbol('(')`: (i) if whitespace intervenes before
the parenthesis, the stored macro is parameterless and the parenthesis token
itself starts its body; (ii) an immediate parenthesis routes through the
argument-list parser; (iii) any other next token stores a parameterless
macro. -/
theorem C6_define_parameter_list (fuel : Nat) (sp : String) (s s2 : PState)
    (name : String)
    (hact : isInactive s = false)
    (hname : tryEatName fuel (skipOneWs s) = some (some name, s2)) :
    (∀ wsp psp s4,
      s2.token = some (CatTokenKind.whitespace, wsp) →
      (bump s2).token = some (CatTokenKind.symbol '(', psp) →
      handleDirective fuel "define" sp s = some (s4, none) →
      ∃ m, s4.macroDefs.lookup name = some m ∧ m.args = [] ∧
        m.body.head? = some (CatTokenKind.symbol '(', psp)) ∧
    (∀ psp, s2.token = some (CatTokenKind.symbol '(', psp) →
      handleDirective fuel "define" sp s =
        (match defineArgsLoop fuel (bump s2) [] with
         | none => none
         | some (Except.error d, s3) => some (s3, some d)
         | some (Except.ok args, s3) => finishDefine fuel name args (bump s3))) ∧
    ((∀ psp, s2.token ≠ some (CatTokenKind.symbol '(', psp)) →
      ∀ s4, handleDirective fuel "define" sp s = some (s4, none) →
      ∃ m, s4.macroDefs.lookup name = some m ∧ m.args = []) := by
  have hd : directiveOf "define" = Directive.define := rfl
  have hstep : handleDirective fuel "define" sp s =
      (match s2.token with
       | some (CatTokenKind.symbol '(', _) =>
         (match defineArgsLoop fuel (bump s2) [] with
          | none => none
          | some (Except.error d, s3) => some (s3, some d)
          | some (Except.ok args, s3) => finishDefine fuel name args (bump s3))
       | _ => finishDefine fuel name [] s2) := by
    simp only [handleDirective, hd]
    rw [if_neg (by simp [hact])]
    rw [hname]
  refine ⟨?_, ?_, ?_⟩
  · intro wsp psp s4 hws hparen hrun
    rw [hstep, hws] at hrun
    dsimp only at hrun
    obtain ⟨-, body, s5, hbody, hs4⟩ :=
      finishDefine_spec fuel name [] s2 s4 none hrun
    have hskip : skipOneWs s2 = bump s2 := by simp [skipOneWs, hws]
    rw [hskip] at hbody
    cases fuel with
    | zero => cases hbody
    | succ f =>
      simp only [defineBodyLoop, hparen] at hbody
      rw [if_neg (by decide)] at hbody
      obtain ⟨suf, hsuf⟩ := defineBodyLoop_prefix f _ _ _ _ hbody
      refine ⟨Makro.mk name name [] body, ?_, rfl, ?_⟩
      · rw [hs4]
        exact lookup_listInsert name _ _
      · rw [hsuf]
        rfl
  · intro psp hparen
    rw [hstep, hparen]
    rfl
  · intro hnopar s4 hrun
    rw [hstep] at hrun
    have helse : (match s2.token with
       | some (CatTokenKind.symbol '(', _) =>
         (match defineArgsLoop fuel (bump s2) [] with
          | none => none
          | some (Except.error d, s3) => some (s3, some d)
          | some (Except.ok args, s3) => finishDefine fuel name args (bump s3))
       | _ => finishDefine fuel name [] s2) = finishDefine fuel name [] s2 := by
      split
      · rename_i x heq
        exact absurd heq (hnopar x)
      · rfl
    rw [helse] at hrun
    obtain ⟨-, body, s5, hbody, hs4⟩ :=
      finishDefine_spec fuel name [] s2 s4 none hrun
    refine ⟨Makro.mk name name [] body, ?_, rfl⟩
    rw [hs4]
    exact lookup_listInsert name _ _

/-- Witness input for C6: the stream of `define FOO (a)` just after the
`define` dispatch — the look-ahead is the macro name, then whitespace, then
a parenthesised body. -/
def c6S : PState :=
  { stack := [[(CatTokenKind.whitespace, " "), (CatTokenKind.symbol '(', "("),
               (CatTokenKind.text, "a"), (CatTokenKind.symbol ')', ")"),
               (CatTokenKind.newline, "\n")]],
    token := some (CatTokenKind.text, "FOO"),
    macroDefs := [], macroStack := [], fs := [], defcondStack := [],
    dirs := Directives.default }

/-- The state after the macro name `FOO` has been read from `c6S`. -/
def c6S2 : PState :=
  { stack := [[(CatTokenKind.symbol '(', "("), (CatTokenKind.text, "a"),
               (CatTokenKind.symbol ')', ")"), (CatTokenKind.newline, "\n")]],
    token := some (CatTokenKind.whitespace, " "),
    macroDefs := [], macroStack := [], fs := [], defcondStack := [],
    dirs := Directives.default }

/-- The state after the whole `define` has been handled from `c6S`: the
parenthesised text went into the body of a parameterless macro. -/
def c6S4 : PState :=
  { stack := [], token := none,
    macroDefs := [("FOO", Makro.mk "FOO" "FOO" []
      [(CatTokenKind.symbol '(', "("), (CatTokenKind.text, "a"),
       (CatTokenKind.symbol ')', ")")])],
    macroStack := [], fs := [], defcondStack := [],
    dirs := Directives.default }

/-- C6, witness: the whitespace-intervening case applied at the `define FOO
(a)` stream — the stored macro is parameterless and its body starts with the
parenthesis. -/
theorem C6_witness :
    ∃ m, (c6S4.macroDefs.lookup "FOO") = some m ∧ m.args = [] ∧
      m.body.head? = some (CatTokenKind.symbol '(', "(") :=
  (C6_define_parameter_list 10 "x" c6S c6S2 "FOO" rfl (by decide)).1
    " " "(" c6S4 rfl rfl (by decide)
